import Mathlib

/-!
# libusb-gsource.c : a GLib event source driven by a libusb context

A shallow embedding of `src/libusb-gsource.c`.  Calls into libusb, GLib and
the user's error callback are recorded, in program order, as a list of `Call`
values; what those calls return is an argument of the embedded function.
Pointers (`libusb_context *`, `libusb_device_handle *`, user data) are natural
numbers; a pointer the code tests against `NULL` is an `Option`.
-/

namespace LibusbGSource

/-! ## Constants of `<poll.h>` and `<glib.h>` -/

/-- Value of `POLLIN` in `<poll.h>`. -/
def POLLIN : Nat := 0x001

/-- Value of `POLLOUT` in `<poll.h>`. -/
def POLLOUT : Nat := 0x004

/-- Value of `G_IO_IN` in GLib's `GIOCondition`. -/
def G_IO_IN : Nat := 1

/-- Value of `G_IO_OUT` in GLib's `GIOCondition`. -/
def G_IO_OUT : Nat := 4

/-! ## Data model -/

/-- GLib's `GPollFD`: `gint fd; gushort events; gushort revents;`. -/
structure GPollFD where
  fd : Int
  events : Nat
  revents : Nat
deriving DecidableEq, Repr

/-- The fields of `struct libusbSource` after the embedded `GSource` header:
the two `GSList`s are lists, head first. -/
structure libusbSource where
  devices : List Nat
  fds : List GPollFD
  timeout_error : Int
  handle_events_error : Int
  context : Nat
deriving DecidableEq, Repr

/-- The two functions that `usb_funcs.prepare` can point to. -/
inductive PrepareFn where
  | prepare
  | alt_prepare
deriving DecidableEq, Repr

/-- The function-local `static GSourceFuncs usb_funcs` of `libusbSource_new`.
Its `check`, `dispatch` and `finalize` slots are never assigned after the
initialiser, so only the `prepare` slot is state. -/
structure GSourceFuncs where
  prepare : PrepareFn
deriving DecidableEq, Repr

/-- The initialiser `{prepare, check, dispatch, finalize}` of `usb_funcs`. -/
def usb_funcs_init : GSourceFuncs := ⟨PrepareFn.prepare⟩

/-- Calls that leave the translation unit, with their arguments. -/
inductive Call where
  | libusb_get_next_timeout (ctx : Nat)
  | errCB (cb : Nat) (timeout_error handle_events_error : Int) (user_data : Nat)
  | libusb_handle_events_timeout (ctx : Nat) (tv_sec tv_usec : Int)
  | g_source_add_poll (p : GPollFD)
  | g_source_remove_poll (p : GPollFD)
  | g_slice_free (p : GPollFD)
  | libusb_close (handle : Nat)
  | libusb_exit (ctx : Nat)
  | libusb_init
  | libusb_set_debug (ctx : Nat) (level : Int)
  | libusb_pollfds_handle_timeouts (ctx : Nat)
  | g_source_new
  | g_source_destroy
  | libusb_get_pollfds (ctx : Nat)
  | free_pollfds_list
  | libusb_set_pollfd_notifiers (ctx : Nat)
  | print_libusb_error (code : Int)
  | libusb_get_device_list (ctx : Nat)
  | libusb_ref_device (dev : Nat)
  | libusb_free_device_list
  | libusb_open (dev : Nat)
  | libusb_kernel_driver_active (handle : Nat) (iface : Int)
  | libusb_detach_kernel_driver (handle : Nat) (iface : Int)
  | libusb_attach_kernel_driver (handle : Nat) (iface : Int)
  | libusb_claim_interface (handle : Nat) (iface : Int)
  | fprintf_device_not_found
deriving DecidableEq, Repr

/-! ## prepare / alt_prepare -/

/-- Storing a wider integer into a `gint` (32-bit two's complement). -/
def toGint (x : Int) : Int := (x + 2147483648) % 4294967296 - 2147483648

/-- What `libusb_get_next_timeout(ctx, &timeout)` hands back: its return value
and the `struct timeval` it filled in. -/
structure NextTimeout where
  retval : Int
  tv_sec : Int
  tv_usec : Int
deriving DecidableEq, Repr

/-- Outcome of a prepare function: the source afterwards, the value of
`*timeout_` afterwards, the returned `gboolean`, and the calls made. -/
structure PrepareResult where
  src : libusbSource
  timeout_ : Int
  ret : Bool
  calls : List Call
deriving DecidableEq, Repr

/-- `static gboolean prepare(GSource *g_source, gint *timeout_)`.
`timeout_` is the value `*timeout_` holds on entry (the `default` branch does
not write it).  The sum is computed in `time_t` and narrowed by the store into
the `gint`; narrowing from any wider two's-complement type gives `toGint` of
the exact value. -/
def prepare (usb_src : libusbSource) (q : NextTimeout) (timeout_ : Int) : PrepareResult :=
  let calls := [Call.libusb_get_next_timeout usb_src.context]
  let retval := q.retval
  if retval = 0 then
    ⟨usb_src, -1, false, calls⟩
  else if retval = 1 then
    let t := toGint (q.tv_sec * 1000 + Int.tdiv q.tv_usec 1000)
    ⟨usb_src, t, if t = 0 then true else false, calls⟩
  else
    ⟨{ usb_src with timeout_error := retval }, timeout_, true, calls⟩

/-- `static gboolean alt_prepare(GSource *g_source, gint *timeout_)`. -/
def alt_prepare (usb_src : libusbSource) (_timeout_ : Int) : PrepareResult :=
  ⟨usb_src, -1, false, []⟩

/-- The call `source->source_funcs->prepare(source, &timeout)` made by the
main loop: every source made by `libusbSource_new` points at the one static
`usb_funcs`, so the slot is read when the loop calls it. -/
def source_prepare (usb_funcs : GSourceFuncs) (usb_src : libusbSource) (q : NextTimeout)
    (timeout_ : Int) : PrepareResult :=
  match usb_funcs.prepare with
  | PrepareFn.prepare => prepare usb_src q timeout_
  | PrepareFn.alt_prepare => alt_prepare usb_src timeout_

/-! ## check -/

/-- The `do { ... } while((elem = g_slist_next(elem)))` loop of `check`,
entered with `elem` pointing at a node holding `g_usb_fd`, followed by
`rest`. -/
def check_loop (g_usb_fd : GPollFD) (rest : List GPollFD) : Bool :=
  if g_usb_fd.revents ≠ 0 then true
  else
    match rest with
    | [] => false
    | next :: rest' => check_loop next rest'

/-- `static gboolean check(GSource *g_source)`. -/
def check (usb_src : libusbSource) : Bool :=
  match usb_src.fds with
  | [] => false
  | g_usb_fd :: rest => check_loop g_usb_fd rest

/-! ## dispatch -/

/-- Outcome of `dispatch`. -/
structure DispatchResult where
  src : libusbSource
  ret : Bool
  calls : List Call
deriving DecidableEq, Repr

/-- The call `errCB(a, b, user_data)` through a callback pointer known to be
non-`NULL` where it is used. -/
def call_errCB (errCB : Option Nat) (a b : Int) (user_data : Nat) : List Call :=
  match errCB with
  | some cb => [Call.errCB cb a b user_data]
  | none => []

/-- `static gboolean dispatch(GSource *g_source, GSourceFunc callback, gpointer user_data)`.
`callback` is `none` for `NULL`; `status` is what
`libusb_handle_events_timeout(ctx, &nonblocking)` returns if it is called. -/
def dispatch (usb_src : libusbSource) (callback : Option Nat) (user_data : Nat)
    (status : Int) : DispatchResult :=
  let errCB := callback
  if usb_src.timeout_error ≠ 0 ∧ errCB ≠ none then
    ⟨usb_src, true, call_errCB errCB usb_src.timeout_error 0 user_data⟩
  else
    let usb_src' := { usb_src with handle_events_error := status }
    let calls := [Call.libusb_handle_events_timeout usb_src.context 0 0]
    if usb_src'.handle_events_error ≠ 0 ∧ errCB ≠ none then
      ⟨usb_src', true, calls ++ call_errCB errCB 0 usb_src'.handle_events_error user_data⟩
    else
      ⟨usb_src', true, calls⟩

/-! ## The descriptor registry: add / remove notifications -/

/-- Outcome of a function that only updates the source and makes calls. -/
structure CbResult where
  src : libusbSource
  calls : List Call
deriving DecidableEq, Repr

/-- `static void usb_fd_added_cb(int fd, short events, void * source)`.
`events` is the bit pattern of the `short`; `g_slice_new0` gives a zeroed
`GPollFD`. -/
def usb_fd_added_cb (fd : Int) (events : Nat) (usb_src : libusbSource) : CbResult :=
  let g0 : GPollFD := ⟨0, 0, 0⟩
  let g1 : GPollFD := { g0 with fd := fd }
  let g2 : GPollFD := if events &&& POLLIN ≠ 0 then { g1 with events := g1.events ||| G_IO_IN } else g1
  let g3 : GPollFD := if events &&& POLLOUT ≠ 0 then { g2 with events := g2.events ||| G_IO_OUT } else g2
  ⟨{ usb_src with fds := g3 :: usb_src.fds }, [Call.g_source_add_poll g3]⟩

/-- The `do { ... } while((elem = g_slist_next(elem)))` loop of
`usb_fd_removed_cb`, entered with `elem` at the node holding `g_usb_fd`;
`before` are the nodes of `usb_src->fds` in front of `elem`, `rest` the nodes
behind it.  Returns the new `usb_src->fds` and the calls made;
`g_slist_delete_link(fds, elem)` unlinks exactly the node `elem`. -/
def usb_fd_removed_loop (fd : Int) (before : List GPollFD) (g_usb_fd : GPollFD)
    (rest : List GPollFD) : List GPollFD × List Call :=
  if g_usb_fd.fd = fd then
    (before ++ rest, [Call.g_source_remove_poll g_usb_fd, Call.g_slice_free g_usb_fd])
  else
    match rest with
    | [] => (before ++ [g_usb_fd], [])
    | next :: rest' => usb_fd_removed_loop fd (before ++ [g_usb_fd]) next rest'

/-- `static void usb_fd_removed_cb(int fd, void* source)`. -/
def usb_fd_removed_cb (fd : Int) (usb_src : libusbSource) : CbResult :=
  match usb_src.fds with
  | [] => ⟨usb_src, []⟩
  | g_usb_fd :: rest =>
    let r := usb_fd_removed_loop fd [] g_usb_fd rest
    ⟨{ usb_src with fds := r.1 }, r.2⟩

/-! ## Construction -/

/-- The `for` loop of `init_usb_fds` over the `NULL`-terminated array returned
by `libusb_get_pollfds`, given as the list of its `(fd, events)` pairs. -/
def init_usb_fds_loop (usb_fds : List (Int × Nat)) (usb_source : libusbSource) : CbResult :=
  match usb_fds with
  | [] => ⟨usb_source, []⟩
  | (fd, events) :: rest =>
    let r := usb_fd_added_cb fd events usb_source
    let r' := init_usb_fds_loop rest r.src
    ⟨r'.src, r.calls ++ r'.calls⟩

/-- `static int init_usb_fds(libusbSource * usb_source)`; `usb_fds` is what
`libusb_get_pollfds` returns (`none` for `NULL`).  The result pairs the
returned `int` with the source and the calls. -/
def init_usb_fds (usb_source : libusbSource) (usb_fds : Option (List (Int × Nat))) :
    Int × CbResult :=
  match usb_fds with
  | none => (-1, ⟨usb_source, [Call.libusb_get_pollfds usb_source.context]⟩)
  | some l =>
    let r := init_usb_fds_loop l usb_source
    (0, ⟨r.src, [Call.libusb_get_pollfds usb_source.context] ++ r.calls ++
      [Call.free_pollfds_list, Call.libusb_set_pollfd_notifiers usb_source.context]⟩)

/-- What the library calls made by `libusbSource_new` return: `libusb_init`
(return value and the context it stores), `libusb_pollfds_handle_timeouts`,
and `libusb_get_pollfds`. -/
structure NewEnv where
  usbErr : Int
  context : Nat
  pollfds_handle_timeouts : Int
  usb_fds : Option (List (Int × Nat))
deriving DecidableEq, Repr

/-- Outcome of `libusbSource_new`: the static `usb_funcs` afterwards, the
returned source (`none` for `NULL`), and the calls made. -/
structure NewResult where
  usb_funcs : GSourceFuncs
  ret : Option libusbSource
  calls : List Call
deriving DecidableEq, Repr

/-- `libusbSource * libusbSource_new(void)`; `usb_funcs` is the value the
function-local static holds on entry (`usb_funcs_init` on the first call). -/
def libusbSource_new (usb_funcs : GSourceFuncs) (env : NewEnv) : NewResult :=
  if env.usbErr ≠ 0 then
    ⟨usb_funcs, none, [Call.libusb_init, Call.print_libusb_error env.usbErr]⟩
  else
    let context := env.context
    let usb_funcs' : GSourceFuncs :=
      if env.pollfds_handle_timeouts = 0 then { usb_funcs with prepare := PrepareFn.alt_prepare }
      else usb_funcs
    let usb_source : libusbSource :=
      { devices := [], fds := [], context := context, timeout_error := 0, handle_events_error := 0 }
    let calls := [Call.libusb_init, Call.libusb_set_debug context 3,
      Call.libusb_pollfds_handle_timeouts context, Call.g_source_new]
    let r := init_usb_fds usb_source env.usb_fds
    if r.1 ≠ 0 then
      ⟨usb_funcs', none, calls ++ r.2.calls ++ [Call.g_source_destroy]⟩
    else
      ⟨usb_funcs', some r.2.src, calls ++ r.2.calls⟩

/-! ## finalize -/

/-- `static void free_pollfd(gpointer data)`. -/
def free_pollfd (data : GPollFD) : List Call :=
  [Call.g_slice_free data]

/-- `static void close_device(gpointer data, gpointer user_data)`. -/
def close_device (data : Nat) : List Call :=
  [Call.libusb_close data]

/-- GLib's `g_slist_free_full(list, free_pollfd)`: `free_pollfd` on the data
of each node, head first (the nodes themselves are freed too). -/
def g_slist_free_full_pollfd : List GPollFD → List Call
  | [] => []
  | data :: rest => free_pollfd data ++ g_slist_free_full_pollfd rest

/-- GLib's `g_slist_foreach(list, close_device, NULL)`: `close_device` on the
data of each node, head first. -/
def g_slist_foreach_close_device : List Nat → List Call
  | [] => []
  | data :: rest => close_device data ++ g_slist_foreach_close_device rest

/-- `static void finalize(GSource *g_source)`. -/
def finalize (usb_src : libusbSource) : CbResult :=
  let calls := g_slist_free_full_pollfd usb_src.fds
  let usb_src' := { usb_src with fds := [] }
  let calls := calls ++ g_slist_foreach_close_device usb_src'.devices
  ⟨usb_src', calls ++ [Call.libusb_exit usb_src'.context]⟩

/-! ## Finding and opening a device -/

/-- What `libusb_get_device_list(ctx, &list)` hands back: its return value
(the number of devices, negative on error) and the devices of the list. -/
structure DeviceListEnv where
  num_usb_dev : Int
  list : List Nat
deriving DecidableEq, Repr

/-- The `for` loop of `find_usb_device` over the devices `list[i]`,
`i < num_usb_dev`, still to be looked at; `is_device` is the caller's
predicate, compared with `TRUE` (1).  Returns `found` and the calls made. -/
def find_usb_device_loop (is_device : Nat → Int) : List Nat → Option Nat × List Call
  | [] => (none, [])
  | dev :: rest =>
    if is_device dev = 1 then (some dev, [Call.libusb_ref_device dev])
    else find_usb_device_loop is_device rest

/-- `static libusb_device * find_usb_device(libusbSource * usb_source, is_device is_device)`. -/
def find_usb_device (usb_source : libusbSource) (is_device : Nat → Int) (env : DeviceListEnv) :
    Option Nat × List Call :=
  let calls := [Call.libusb_get_device_list usb_source.context]
  if env.num_usb_dev < 0 then
    (none, calls ++ [Call.print_libusb_error env.num_usb_dev])
  else
    let r := find_usb_device_loop is_device (env.list.take env.num_usb_dev.toNat)
    let found := r.1
    let calls := calls ++ r.2
    let calls := if found = none then calls ++ [Call.fprintf_device_not_found] else calls
    (found, calls ++ [Call.libusb_free_device_list])

/-- What the libusb calls made by `open_device_interface` return:
`libusb_open` (return value and the handle it stores) and, for the pass of the
loop with index `i`, `libusb_kernel_driver_active`, `libusb_detach_kernel_driver`
and `libusb_claim_interface`. -/
structure OpenEnv where
  open_ret : Int
  handle : Nat
  kd_stat : Nat → Int
  detach_ret : Nat → Int
  claim_ret : Nat → Int

/-- The `for(i=0; i < num_ifaces; ++i)` loop of `open_device_interface` from
index `i` on; the list holds `iface_num[i]`, ..., `iface_num[num_ifaces-1]`.
Returns what the function returns (`none` for `NULL`) and the calls made. -/
def open_device_interface_loop (handle : Nat) (env : OpenEnv) (i : Nat) :
    List Int → Option Nat × List Call
  | [] => (some handle, [])
  | iface :: rest =>
    let kd_stat := env.kd_stat i
    let calls := [Call.libusb_kernel_driver_active handle iface]
    if kd_stat < 0 then
      (none, calls ++ [Call.print_libusb_error kd_stat, Call.libusb_close handle])
    else
      let calls := if kd_stat > 0 then calls ++ [Call.libusb_detach_kernel_driver handle iface]
        else calls
      if kd_stat > 0 ∧ env.detach_ret i ≠ 0 then
        (none, calls ++ [Call.print_libusb_error (env.detach_ret i), Call.libusb_close handle])
      else
        let retErr := env.claim_ret i
        let calls := calls ++ [Call.libusb_claim_interface handle iface]
        if retErr ≠ 0 then
          (none, calls ++ [Call.print_libusb_error retErr,
            Call.libusb_attach_kernel_driver handle iface, Call.libusb_close handle])
        else
          let r := open_device_interface_loop handle env (i + 1) rest
          (r.1, calls ++ r.2)

/-- `static libusb_device_handle * open_device_interface(libusb_device * dev, int * iface_num, int num_ifaces)`;
`iface_num` is the list of the `num_ifaces` interface numbers, `dev` is `none`
for `NULL`. -/
def open_device_interface (dev : Option Nat) (iface_num : List Int) (env : OpenEnv) :
    Option Nat × List Call :=
  match dev with
  | none => (none, [])
  | some d =>
    let retErr := env.open_ret
    let calls := [Call.libusb_open d]
    if retErr ≠ 0 then
      (none, calls ++ [Call.print_libusb_error retErr])
    else
      let r := open_device_interface_loop env.handle env 0 iface_num
      (r.1, calls ++ r.2)

/-- Outcome of `open_usb_device_handle`: the source afterwards, the returned
handle (`none` for `NULL`), and the calls made. -/
structure HandleResult where
  src : libusbSource
  ret : Option Nat
  calls : List Call

/-- `libusb_device_handle * open_usb_device_handle(libusbSource * usb_source, is_device is_device, int * iface_num, int num_ifaces)`.
Neither this function nor the two it calls assigns to a field of
`usb_source`. -/
def open_usb_device_handle (usb_source : libusbSource) (is_device : Nat → Int)
    (iface_num : List Int) (denv : DeviceListEnv) (oenv : OpenEnv) : HandleResult :=
  let f := find_usb_device usb_source is_device denv
  let dev := f.1
  let r := open_device_interface dev iface_num oenv
  ⟨usb_source, r.1, f.2 ++ r.2⟩

/-! ## Drivers: what libusb and the main loop do with the functions above -/

/-- A descriptor notification sent by libusb through the notifiers installed
by `libusb_set_pollfd_notifiers`. -/
inductive Notif where
  | added (fd : Int) (events : Nat)
  | removed (fd : Int)
deriving DecidableEq, Repr

/-- Deliver one notification to the source. -/
def notify (usb_src : libusbSource) (n : Notif) : CbResult :=
  match n with
  | Notif.added fd events => usb_fd_added_cb fd events usb_src
  | Notif.removed fd => usb_fd_removed_cb fd usb_src

/-- Deliver a sequence of notifications, first to last. -/
def notify_all (usb_src : libusbSource) (ns : List Notif) : libusbSource :=
  ns.foldl (fun s n => (notify s n).src) usb_src

/-- Every `added` notification of the sequence names a descriptor that no
entry of `usb_src->fds` holds at the moment it is delivered. -/
def adds_fresh (usb_src : libusbSource) : List Notif → Bool
  | [] => true
  | Notif.added fd events :: rest =>
    usb_src.fds.all (fun p => decide (p.fd ≠ fd)) &&
      adds_fresh (notify usb_src (Notif.added fd events)).src rest
  | Notif.removed fd :: rest => adds_fresh (notify usb_src (Notif.removed fd)).src rest

/-- Descriptor `fd` was added by the sequence and not removed afterwards:
some `added fd` has no `removed fd` behind it. -/
def AddedNotRemoved (ns : List Notif) (fd : Int) : Prop :=
  ∃ pre events post, ns = pre ++ Notif.added fd events :: post ∧ Notif.removed fd ∉ post

/-- One call made by the main loop on the source.  `prepare` carries the value
of the static `usb_funcs` at the time of the call and what the deadline query
would return; `dispatch` carries the callback, the user data and what event
processing would return. -/
inductive LoopCall where
  | prepare (usb_funcs : GSourceFuncs) (q : NextTimeout)
  | check
  | dispatch (callback : Option Nat) (user_data : Nat) (status : Int)
deriving DecidableEq, Repr

/-- The source after one call of the main loop. -/
def loop_step (usb_src : libusbSource) (c : LoopCall) : libusbSource :=
  match c with
  | LoopCall.prepare usb_funcs q => (source_prepare usb_funcs usb_src q (-1)).src
  | LoopCall.check => usb_src
  | LoopCall.dispatch callback user_data status => (dispatch usb_src callback user_data status).src

/-- The source after a sequence of main-loop calls, first to last. -/
def loop_run (usb_src : libusbSource) (cs : List LoopCall) : libusbSource :=
  cs.foldl loop_step usb_src

/-- The calls made by one call of the main loop. -/
def loop_step_calls (usb_src : libusbSource) (c : LoopCall) : List Call :=
  match c with
  | LoopCall.prepare usb_funcs q => (source_prepare usb_funcs usb_src q (-1)).calls
  | LoopCall.check => []
  | LoopCall.dispatch callback user_data status =>
    (dispatch usb_src callback user_data status).calls

/-- The calls made by each call of a sequence of main-loop calls, in order. -/
def loop_calls (usb_src : libusbSource) : List LoopCall → List (List Call)
  | [] => []
  | c :: cs => loop_step_calls usb_src c :: loop_calls (loop_step usb_src c) cs

/-- The handles passed to `libusb_close` by a sequence of calls, in order. -/
def closed_handles (calls : List Call) : List Nat :=
  calls.filterMap (fun c => match c with
    | Call.libusb_close handle => some handle
    | _ => none)

/-- The interfaces passed to `libusb_detach_kernel_driver` by a sequence of
calls, in order. -/
def detached_ifaces (calls : List Call) : List Int :=
  calls.filterMap (fun c => match c with
    | Call.libusb_detach_kernel_driver _ iface => some iface
    | _ => none)

/-- The interfaces passed to `libusb_attach_kernel_driver` by a sequence of
calls, in order. -/
def attached_ifaces (calls : List Call) : List Int :=
  calls.filterMap (fun c => match c with
    | Call.libusb_attach_kernel_driver _ iface => some iface
    | _ => none)

/-! ## Example states and runs, and the view of the registry used below -/

/-- A source as `libusbSource_new` leaves it when libusb reports no
descriptors: both lists empty, both error slots zero. -/
def src_fresh : libusbSource :=
  { devices := [], fds := [], timeout_error := 0, handle_events_error := 0, context := 7 }

/-- A source with one registered descriptor whose `revents` the poll has set. -/
def src_one_ready : libusbSource :=
  { devices := [], fds := [⟨3, 1, 1⟩], timeout_error := 0, handle_events_error := 0, context := 7 }

/-- The descriptors held by the entries of `usb_src->fds`, head first. -/
def registered_fds (usb_src : libusbSource) : List Int :=
  usb_src.fds.map GPollFD.fd

/-- A run in which a failed event-processing call is followed, one iteration
later, by a failed deadline query. -/
def run_both_errors : List LoopCall :=
  [LoopCall.prepare usb_funcs_init ⟨0, 0, 0⟩, LoopCall.check, LoopCall.dispatch (some 11) 22 (-1),
   LoopCall.prepare usb_funcs_init ⟨-99, 0, 0⟩, LoopCall.check]

/-- A run in which event processing fails, then succeeds, then the deadline
query fails; the last dispatch is handed a status it never asks for. -/
def run_recovered_then_query_fails : List LoopCall :=
  [LoopCall.prepare usb_funcs_init ⟨0, 0, 0⟩, LoopCall.check, LoopCall.dispatch (some 11) 22 (-1),
   LoopCall.prepare usb_funcs_init ⟨0, 0, 0⟩, LoopCall.check, LoopCall.dispatch (some 11) 22 0,
   LoopCall.prepare usb_funcs_init ⟨-99, 0, 0⟩, LoopCall.check,
   LoopCall.dispatch (some 11) 22 (-1)]

/-- The deadline query of a main-loop call fails: the call is a prepare, the
prepare slot holds the normal `prepare`, and `libusb_get_next_timeout` returns
neither 0 nor 1. -/
def query_fails (c : LoopCall) : Bool :=
  match c with
  | LoopCall.prepare usb_funcs q =>
    decide (usb_funcs.prepare = PrepareFn.prepare ∧ q.retval ≠ 0 ∧ q.retval ≠ 1)
  | _ => false

/-- The statuses returned by the event-processing calls of a run, in order,
read off the run alone: a dispatch asks for event processing unless a deadline
query has failed before it (`failed`, which starts as whether one had failed
before the run) and a callback is installed. -/
def processing_statuses (failed : Bool) : List LoopCall → List Int
  | [] => []
  | LoopCall.prepare usb_funcs q :: cs =>
    processing_statuses (failed || query_fails (LoopCall.prepare usb_funcs q)) cs
  | LoopCall.check :: cs => processing_statuses failed cs
  | LoopCall.dispatch callback _ status :: cs =>
    if failed = true ∧ callback ≠ none then processing_statuses failed cs
    else status :: processing_statuses failed cs

/-- A run in which the first deadline query fails with -99 and the deadline
query of the next iteration succeeds; a callback is installed throughout. -/
def run_deadline_error_then_ok : List LoopCall :=
  [LoopCall.prepare usb_funcs_init ⟨-99, 0, 0⟩, LoopCall.check, LoopCall.dispatch (some 11) 22 0,
   LoopCall.prepare usb_funcs_init ⟨0, 0, 0⟩, LoopCall.check, LoopCall.dispatch (some 11) 22 0]

/-- A device list holding the single device 5. -/
def one_device : DeviceListEnv := ⟨1, [5]⟩

/-- Every libusb call of `open_device_interface` succeeds, no kernel driver is
active, and the handle opened is 42. -/
def open_all_ok : OpenEnv :=
  { open_ret := 0, handle := 42, kd_stat := fun _ => 0, detach_ret := fun _ => 0,
    claim_ret := fun _ => 0 }

/-- Handle 42 is opened; in the first pass of the loop a kernel driver is
active, is detached and the interface is claimed; in the second pass the
driver-status query fails with -99. -/
def open_second_query_fails : OpenEnv :=
  { open_ret := 0, handle := 42, kd_stat := fun i => if i = 0 then 1 else -99,
    detach_ret := fun _ => 0, claim_ret := fun _ => 0 }

/-- Handle 42 is opened; in both passes of the loop a kernel driver is active
and is detached; the first claim succeeds, the second fails with -6. -/
def open_second_claim_fails : OpenEnv :=
  { open_ret := 0, handle := 42, kd_stat := fun _ => 1, detach_ret := fun _ => 0,
    claim_ret := fun i => if i = 0 then 0 else -6 }

/-- The passes of the loop of `open_device_interface` with indices `i`, ...,
`i + n - 1` all succeed: the driver-status query is not negative, the detach
(made when the status is positive) returns 0, and the claim returns 0. -/
def passes_succeed (env : OpenEnv) (i n : Nat) : Prop :=
  ∀ j, j < n → 0 ≤ env.kd_stat (i + j) ∧
    (0 < env.kd_stat (i + j) → env.detach_ret (i + j) = 0) ∧ env.claim_ret (i + j) = 0

/-- A registry in which descriptor 5 is held by two entries. -/
def src_duplicate_fd : libusbSource :=
  { devices := [], fds := [⟨3, 1, 0⟩, ⟨5, 4, 0⟩, ⟨5, 1, 0⟩], timeout_error := 0,
    handle_events_error := 0, context := 7 }

/-! ## prepare -/

/-- Narrowing leaves a value that fits a `gint` unchanged. -/
theorem toGint_of_fits (x : Int) (hlo : -2147483648 ≤ x) (hhi : x ≤ 2147483647) :
    toGint x = x := by
  unfold toGint
  omega

/-- While the millisecond value fits a `gint`, `prepare` stores exactly
`tv_sec*1000 + tv_usec/1000` and returns `TRUE` exactly when it is zero. -/
theorem prepare_deadline_in_range (usb_src : libusbSource) (sec usec t : Int)
    (hsec : 0 ≤ sec) (hlo : 0 ≤ usec) (hhi : usec < 1000000)
    (hfit : sec * 1000 + usec / 1000 ≤ 2147483647) :
    (prepare usb_src ⟨1, sec, usec⟩ t).timeout_ = sec * 1000 + usec / 1000 ∧
    ((prepare usb_src ⟨1, sec, usec⟩ t).ret = true ↔ sec * 1000 + usec / 1000 = 0) ∧
    (prepare usb_src ⟨1, sec, usec⟩ t).src = usb_src := by
  have hdiv : Int.tdiv usec 1000 = usec / 1000 := Int.tdiv_eq_ediv hlo (by decide)
  have hfits : toGint (sec * 1000 + usec / 1000) = sec * 1000 + usec / 1000 :=
    toGint_of_fits _ (by omega) hfit
  simp [prepare, hdiv, hfits]

/-- The two deadlines the specification lists: `(1, 250000)` gives 1250 ms and
not ready, `(0, 0)` gives ready. -/
theorem prepare_deadline_examples (usb_src : libusbSource) (t : Int) :
    (prepare usb_src ⟨1, 1, 250000⟩ t).timeout_ = 1250 ∧
    (prepare usb_src ⟨1, 1, 250000⟩ t).ret = false ∧
    (prepare usb_src ⟨1, 0, 0⟩ t).timeout_ = 0 ∧
    (prepare usb_src ⟨1, 0, 0⟩ t).ret = true := by
  refine ⟨?_, ?_, ?_, ?_⟩ <;> simp [prepare, toGint] <;> decide

/-- C1 (fails on the code).  A deadline of 2147484 s, 0 µs is 2147484000 ms,
but `prepare` stores -2147483296 in the `gint` wait bound; a deadline of
4294967 s, 296000 µs is 4294967296 ms, not zero, but `prepare` stores 0 and
returns ready-without-polling. -/
theorem prepare_deadline_overflows_gint (usb_src : libusbSource) (t : Int) :
    (prepare usb_src ⟨1, 2147484, 0⟩ t).timeout_ = -2147483296 ∧
    (2147484 : Int) * 1000 + 0 / 1000 = 2147484000 ∧
    (prepare usb_src ⟨1, 4294967, 296000⟩ t).timeout_ = 0 ∧
    (prepare usb_src ⟨1, 4294967, 296000⟩ t).ret = true ∧
    (4294967 : Int) * 1000 + 296000 / 1000 = 4294967296 := by
  refine ⟨?_, ?_, ?_, ?_, ?_⟩ <;> simp [prepare, toGint] <;> decide

/-- C2.  When the deadline query returns an error code `E` (neither 0 nor 1),
`prepare` stores `E` in `timeout_error`, changes nothing else and returns
`TRUE`; `dispatch` on the resulting source with a callback `h` and user data
`d` makes the single call `h(E, 0, d)` and returns `TRUE`. -/
theorem prepare_error_then_dispatch (usb_src : libusbSource) (q : NextTimeout) (t : Int)
    (h d : Nat) (status : Int) (h0 : q.retval ≠ 0) (h1 : q.retval ≠ 1) :
    (prepare usb_src q t).src = { usb_src with timeout_error := q.retval } ∧
    (prepare usb_src q t).ret = true ∧
    (dispatch (prepare usb_src q t).src (some h) d status).calls = [Call.errCB h q.retval 0 d] ∧
    (dispatch (prepare usb_src q t).src (some h) d status).ret = true := by
  simp [prepare, dispatch, call_errCB, h0, h1]

/-- Witness of `prepare_error_then_dispatch`: error code -99 on a fresh source. -/
theorem prepare_error_then_dispatch_witness :
    (prepare src_fresh ⟨-99, 0, 0⟩ (-1)).src = { src_fresh with timeout_error := -99 } ∧
    (prepare src_fresh ⟨-99, 0, 0⟩ (-1)).ret = true ∧
    (dispatch (prepare src_fresh ⟨-99, 0, 0⟩ (-1)).src (some 11) 22 0).calls
      = [Call.errCB 11 (-99) 0 22] ∧
    (dispatch (prepare src_fresh ⟨-99, 0, 0⟩ (-1)).src (some 11) 22 0).ret = true :=
  prepare_error_then_dispatch src_fresh ⟨-99, 0, 0⟩ (-1) 11 22 0 (by decide) (by decide)

/-! ## check -/

/-- The loop of `check` finds a non-zero `revents` iff one exists from `elem`
onwards. -/
theorem check_loop_iff (g : GPollFD) (rest : List GPollFD) :
    check_loop g rest = true ↔ ∃ p ∈ g :: rest, p.revents ≠ 0 := by
  induction rest generalizing g with
  | nil =>
    unfold check_loop
    by_cases hg : g.revents = 0 <;> simp [hg]
  | cons x xs ih =>
    unfold check_loop
    by_cases hg : g.revents = 0
    · simp only [hg, ne_eq, not_true_eq_false, if_false]
      rw [ih x]
      simp [hg]
    · simp [hg]

/-- C3 (as stated, false).  On the source left by a failed deadline query
(no descriptors, `timeout_error = -99`) `check` returns `FALSE` although the
deadline-error slot is non-zero. -/
theorem check_ignores_timeout_error :
    ¬ (check (prepare src_fresh ⟨-99, 0, 0⟩ (-1)).src = true ↔
        ((∃ p ∈ (prepare src_fresh ⟨-99, 0, 0⟩ (-1)).src.fds, p.revents ≠ 0) ∨
          (prepare src_fresh ⟨-99, 0, 0⟩ (-1)).src.timeout_error ≠ 0)) := by
  simp [prepare, src_fresh, check]

/-- C3 (amended).  `check` returns `TRUE` iff some entry of `fds` has non-zero
`revents`; the error slots are not consulted, and with no entries it returns
`FALSE`. -/
theorem check_iff_some_revents (usb_src : libusbSource) (te he : Int) :
    (check usb_src = true ↔ ∃ p ∈ usb_src.fds, p.revents ≠ 0) ∧
    check { usb_src with timeout_error := te, handle_events_error := he } = check usb_src ∧
    check { usb_src with fds := [] } = false := by
  refine ⟨?_, rfl, rfl⟩
  unfold check
  cases hfds : usb_src.fds with
  | nil => simp
  | cons g rest => exact check_loop_iff g rest

/-! ## dispatch -/

/-- C4.  With `timeout_error = 0` and a callback `h`: a non-zero status `F`
from event processing is stored in `handle_events_error`, `h(0, F, d)` is the
only callback call (made after the event-processing call) and `TRUE` is
returned; with status zero, whatever the callback, event processing is the
only call made. -/
theorem dispatch_processing_error (usb_src : libusbSource) (h d : Nat) (F : Int)
    (callback : Option Nat) (ht : usb_src.timeout_error = 0) (hF : F ≠ 0) :
    dispatch usb_src (some h) d F =
      ⟨{ usb_src with handle_events_error := F }, true,
        [Call.libusb_handle_events_timeout usb_src.context 0 0, Call.errCB h 0 F d]⟩ ∧
    dispatch usb_src callback d 0 =
      ⟨{ usb_src with handle_events_error := 0 }, true,
        [Call.libusb_handle_events_timeout usb_src.context 0 0]⟩ := by
  simp [dispatch, call_errCB, ht, hF]

/-- Witness of `dispatch_processing_error`: status -1 on a source with one
ready descriptor. -/
theorem dispatch_processing_error_witness :
    dispatch src_one_ready (some 11) 22 (-1) =
      ⟨{ src_one_ready with handle_events_error := -1 }, true,
        [Call.libusb_handle_events_timeout src_one_ready.context 0 0, Call.errCB 11 0 (-1) 22]⟩ ∧
    dispatch src_one_ready none 22 0 =
      ⟨{ src_one_ready with handle_events_error := 0 }, true,
        [Call.libusb_handle_events_timeout src_one_ready.context 0 0]⟩ :=
  dispatch_processing_error src_one_ready 11 22 (-1) none rfl (by decide)

/-- C5 (as stated, false).  With `timeout_error = -99` and no callback
(`NULL`), `dispatch` calls event processing and overwrites
`handle_events_error` (0 before, -1 after). -/
theorem dispatch_null_callback_processes_events :
    Call.libusb_handle_events_timeout 7 0 0 ∈
      (dispatch { src_fresh with timeout_error := -99 } none 22 (-1)).calls ∧
    ({ src_fresh with timeout_error := -99 } : libusbSource).handle_events_error = 0 ∧
    (dispatch { src_fresh with timeout_error := -99 } none 22 (-1)).src.handle_events_error
      = -1 := by
  simp [dispatch, src_fresh]

/-- C5 (amended).  With `timeout_error` non-zero and a callback `h` installed,
`dispatch` makes the single call `h(timeout_error, 0, d)` and leaves the source
(both error slots) unchanged; event processing is called exactly when
`timeout_error` is zero or no callback is installed. -/
theorem dispatch_deadline_error_with_callback (usb_src : libusbSource)
    (callback : Option Nat) (h d : Nat) (status : Int) :
    (usb_src.timeout_error ≠ 0 →
      (dispatch usb_src (some h) d status).calls = [Call.errCB h usb_src.timeout_error 0 d] ∧
      (dispatch usb_src (some h) d status).src = usb_src) ∧
    (Call.libusb_handle_events_timeout usb_src.context 0 0 ∈
        (dispatch usb_src callback d status).calls ↔
      (usb_src.timeout_error = 0 ∨ callback = none)) := by
  constructor
  · intro ht
    simp [dispatch, call_errCB, ht]
  · cases callback with
    | none => simp [dispatch, call_errCB]
    | some cb =>
      by_cases ht : usb_src.timeout_error = 0
      · by_cases hs : status = 0 <;> simp [dispatch, call_errCB, ht, hs]
      · simp [dispatch, call_errCB, ht]

/-- Witness of `dispatch_deadline_error_with_callback`: `timeout_error = -99`,
callback 11. -/
theorem dispatch_deadline_error_with_callback_witness :
    (({ src_fresh with timeout_error := -99 } : libusbSource).timeout_error ≠ 0 →
      (dispatch { src_fresh with timeout_error := -99 } (some 11) 22 (-1)).calls
        = [Call.errCB 11 (-99) 0 22] ∧
      (dispatch { src_fresh with timeout_error := -99 } (some 11) 22 (-1)).src
        = { src_fresh with timeout_error := -99 }) ∧
    (Call.libusb_handle_events_timeout 7 0 0 ∈
        (dispatch { src_fresh with timeout_error := -99 } (some 11) 22 (-1)).calls ↔
      (({ src_fresh with timeout_error := -99 } : libusbSource).timeout_error = 0 ∨
        (some 11 : Option Nat) = none)) :=
  dispatch_deadline_error_with_callback { src_fresh with timeout_error := -99 } (some 11) 11 22 (-1)

/-- C6.  `dispatch` returns `TRUE` for every source, every callback
(including `NULL`) and every status of event processing. -/
theorem dispatch_returns_true (usb_src : libusbSource) (callback : Option Nat)
    (user_data : Nat) (status : Int) :
    (dispatch usb_src callback user_data status).ret = true := by
  simp only [dispatch]
  split
  · rfl
  · split <;> rfl


/-! ## The descriptor registry -/

/-- The entry made by `usb_fd_added_cb` holds the descriptor it was given. -/
theorem usb_fd_added_cb_fds (fd : Int) (events : Nat) (usb_src : libusbSource) :
    registered_fds (usb_fd_added_cb fd events usb_src).src = fd :: registered_fds usb_src := by
  simp only [usb_fd_added_cb, registered_fds, List.map_cons]
  congr 1
  split <;> split <;> rfl

/-- The removal loop unlinks the first node from `elem` onwards whose
descriptor is `fd`, and keeps the nodes in front of `elem`. -/
theorem usb_fd_removed_loop_fst (fd : Int) (before : List GPollFD) (g : GPollFD)
    (rest : List GPollFD) :
    (usb_fd_removed_loop fd before g rest).1
      = before ++ (g :: rest).eraseP (fun p => decide (p.fd = fd)) := by
  induction rest generalizing before g with
  | nil =>
    unfold usb_fd_removed_loop
    by_cases hg : g.fd = fd <;> simp [hg]
  | cons x xs ih =>
    unfold usb_fd_removed_loop
    by_cases hg : g.fd = fd
    · simp [hg]
    · simp only [hg, if_false]
      rw [ih (before ++ [g]) x]
      rw [List.eraseP_cons_of_neg (l := x :: xs) (by simpa using hg)]
      simp

/-- When no node from `elem` onwards holds `fd`, the removal loop makes no
call. -/
theorem usb_fd_removed_loop_snd_of_absent (fd : Int) (before : List GPollFD) (g : GPollFD)
    (rest : List GPollFD) (habs : ∀ p ∈ g :: rest, p.fd ≠ fd) :
    (usb_fd_removed_loop fd before g rest).2 = [] := by
  induction rest generalizing before g with
  | nil =>
    unfold usb_fd_removed_loop
    have hg : g.fd ≠ fd := habs g (by simp)
    simp [hg]
  | cons x xs ih =>
    unfold usb_fd_removed_loop
    have hg : g.fd ≠ fd := habs g (by simp)
    simp only [hg, if_false]
    exact ih (before ++ [g]) x (fun p hp => habs p (List.mem_cons_of_mem _ hp))

/-- Unlinking the first entry holding `fd` erases the first `fd` from the list
of descriptors. -/
theorem map_fd_eraseP (fd : Int) (l : List GPollFD) :
    (l.eraseP (fun p => decide (p.fd = fd))).map GPollFD.fd = (l.map GPollFD.fd).erase fd := by
  induction l with
  | nil => rfl
  | cons x xs ih =>
    by_cases hx : x.fd = fd
    · simp [hx]
    · rw [List.eraseP_cons_of_neg (by simpa using hx)]
      simp only [List.map_cons]
      rw [List.erase_cons_tail (by simpa using hx), ih]

/-- Effect of `usb_fd_removed_cb` on the registered descriptors. -/
theorem usb_fd_removed_cb_fds (fd : Int) (usb_src : libusbSource) :
    registered_fds (usb_fd_removed_cb fd usb_src).src = (registered_fds usb_src).erase fd := by
  unfold usb_fd_removed_cb registered_fds
  cases hfds : usb_src.fds with
  | nil => simp [hfds]
  | cons g rest =>
    simp only [usb_fd_removed_loop_fst, List.nil_append]
    exact map_fd_eraseP fd (g :: rest)

/-- Delivering `a ++ b` is delivering `a`, then `b`. -/
theorem notify_all_append (usb_src : libusbSource) (a b : List Notif) :
    notify_all usb_src (a ++ b) = notify_all (notify_all usb_src a) b := by
  simp [notify_all, List.foldl_append]

/-- Freshness of the adds of `a ++ b` splits into that of `a` and that of `b`
from the state `a` leaves. -/
theorem adds_fresh_append (usb_src : libusbSource) (a b : List Notif) :
    adds_fresh usb_src (a ++ b)
      = (adds_fresh usb_src a && adds_fresh (notify_all usb_src a) b) := by
  induction a generalizing usb_src with
  | nil => simp [adds_fresh, notify_all]
  | cons n ns ih =>
    have hcons : ∀ m : Notif, notify_all usb_src (m :: ns) = notify_all (notify usb_src m).src ns :=
      fun _ => rfl
    cases n with
    | added fd events =>
      rw [List.cons_append, hcons]
      simp only [adds_fresh, Bool.and_assoc]
      rw [ih]
    | removed fd =>
      rw [List.cons_append, hcons]
      simp only [adds_fresh]
      rw [ih]

/-- Appending an `added` notification adds its descriptor to the set of
descriptors added and not removed afterwards. -/
theorem addedNotRemoved_snoc_added (ns : List Notif) (fd' : Int) (ev : Nat) (fd : Int) :
    AddedNotRemoved (ns ++ [Notif.added fd' ev]) fd ↔ fd = fd' ∨ AddedNotRemoved ns fd := by
  constructor
  · rintro ⟨pre, e, post, heq, hnot⟩
    rcases List.eq_nil_or_concat post with hp | ⟨L, b, hp⟩
    · subst hp
      have h := (List.append_inj' heq (by simp)).2
      simp only [List.cons.injEq, and_true] at h
      injection h with h1 _
      exact Or.inl h1.symm
    · rw [List.concat_eq_append] at hp
      subst hp
      have heq' : ns ++ [Notif.added fd' ev] = (pre ++ Notif.added fd e :: L) ++ [b] := by
        simpa using heq
      have h := List.append_inj' heq' (by simp)
      refine Or.inr ⟨pre, e, L, h.1, ?_⟩
      intro hmem
      exact hnot (List.mem_append_left _ hmem)
  · rintro (h | ⟨pre, e, post, heq, hnot⟩)
    · subst h
      exact ⟨ns, ev, [], rfl, by simp⟩
    · refine ⟨pre, e, post ++ [Notif.added fd' ev], by simp [heq], ?_⟩
      simp [hnot]

/-- Appending a `removed` notification takes its descriptor out of the set of
descriptors added and not removed afterwards. -/
theorem addedNotRemoved_snoc_removed (ns : List Notif) (fd' : Int) (fd : Int) :
    AddedNotRemoved (ns ++ [Notif.removed fd']) fd ↔ fd ≠ fd' ∧ AddedNotRemoved ns fd := by
  constructor
  · rintro ⟨pre, e, post, heq, hnot⟩
    rcases List.eq_nil_or_concat post with hp | ⟨L, b, hp⟩
    · subst hp
      have h := (List.append_inj' heq (by simp)).2
      simp at h
    · rw [List.concat_eq_append] at hp
      subst hp
      have heq' : ns ++ [Notif.removed fd'] = (pre ++ Notif.added fd e :: L) ++ [b] := by
        simpa using heq
      have h := List.append_inj' heq' (by simp)
      have hb : b = Notif.removed fd' := by
        have := h.2
        simp only [List.cons.injEq, and_true] at this
        exact this.symm
      subst hb
      refine ⟨?_, pre, e, L, h.1, ?_⟩
      · intro hfd
        subst hfd
        exact hnot (by simp)
      · intro hmem
        exact hnot (List.mem_append_left _ hmem)
  · rintro ⟨hne, pre, e, post, heq, hnot⟩
    refine ⟨pre, e, post ++ [Notif.removed fd'], by simp [heq], ?_⟩
    simp only [List.mem_append, List.mem_singleton, Notif.removed.injEq, not_or]
    exact ⟨hnot, hne⟩

/-- From an empty registry, after a sequence of notifications whose adds are
fresh, the registered descriptors are pairwise distinct and are exactly those
added and not removed afterwards. -/
theorem registry_after_run (usb_src : libusbSource) (hempty : usb_src.fds = [])
    (ns : List Notif) (hfresh : adds_fresh usb_src ns = true) :
    (registered_fds (notify_all usb_src ns)).Nodup ∧
    ∀ fd, fd ∈ registered_fds (notify_all usb_src ns) ↔ AddedNotRemoved ns fd := by
  induction ns using List.reverseRecOn with
  | nil =>
    refine ⟨by simp [notify_all, registered_fds, hempty], fun fd => ?_⟩
    simp only [notify_all, List.foldl_nil, registered_fds, hempty, List.map_nil,
      List.not_mem_nil, false_iff]
    rintro ⟨pre, e, post, heq, _⟩
    simp at heq
  | append_singleton ns n ih =>
    rw [adds_fresh_append, Bool.and_eq_true] at hfresh
    obtain ⟨hnodup, hmem⟩ := ih hfresh.1
    have hlast := hfresh.2
    have hstep : notify_all usb_src (ns ++ [n]) = (notify (notify_all usb_src ns) n).src := by
      rw [notify_all_append]
      rfl
    rw [hstep]
    cases n with
    | added fd' ev =>
      simp only [notify, usb_fd_added_cb_fds]
      have hnew : fd' ∉ registered_fds (notify_all usb_src ns) := by
        simp only [adds_fresh, Bool.and_true, List.all_eq_true, decide_eq_true_eq] at hlast
        intro hin
        obtain ⟨p, hp, hpfd⟩ := List.mem_map.1 hin
        exact hlast p hp hpfd
      refine ⟨List.nodup_cons.2 ⟨hnew, hnodup⟩, fun fd => ?_⟩
      rw [addedNotRemoved_snoc_added, List.mem_cons, hmem]
    | removed fd' =>
      simp only [notify, usb_fd_removed_cb_fds]
      refine ⟨hnodup.erase fd', fun fd => ?_⟩
      rw [addedNotRemoved_snoc_removed, hnodup.mem_erase_iff, hmem]

/-- C7.  Starting from an empty registry, for every sequence of add/remove
notifications in which each add names a descriptor no entry currently holds,
after each notification (after every prefix of the sequence) no two entries
of `fds` hold the same descriptor, and the descriptors held are exactly those
added and not subsequently removed. -/
theorem registry_tracks_notifications (usb_src : libusbSource) (hempty : usb_src.fds = [])
    (ns : List Notif) (hfresh : adds_fresh usb_src ns = true) (k : Nat) :
    (registered_fds (notify_all usb_src (ns.take k))).Nodup ∧
    ∀ fd, fd ∈ registered_fds (notify_all usb_src (ns.take k)) ↔
      AddedNotRemoved (ns.take k) fd := by
  have hsplit : adds_fresh usb_src (ns.take k ++ ns.drop k) = true := by
    rw [List.take_append_drop]
    exact hfresh
  rw [adds_fresh_append, Bool.and_eq_true] at hsplit
  exact registry_after_run usb_src hempty (ns.take k) hsplit.1

/-- Witness of `registry_tracks_notifications`: add 3, add 5, remove 3, add 3,
looked at after the third notification. -/
theorem registry_tracks_notifications_witness :
    (registered_fds (notify_all src_fresh
      ([Notif.added 3 1, Notif.added 5 4, Notif.removed 3, Notif.added 3 5].take 3))).Nodup ∧
    ∀ fd, fd ∈ registered_fds (notify_all src_fresh
        ([Notif.added 3 1, Notif.added 5 4, Notif.removed 3, Notif.added 3 5].take 3)) ↔
      AddedNotRemoved ([Notif.added 3 1, Notif.added 5 4, Notif.removed 3, Notif.added 3 5].take 3)
        fd :=
  registry_tracks_notifications src_fresh rfl
    [Notif.added 3 1, Notif.added 5 4, Notif.removed 3, Notif.added 3 5] (by decide) 3

/-- C8.  When no entry of `fds` holds `fd` (in particular when `fds` is
empty), `usb_fd_removed_cb` leaves the source unchanged and makes no call: no
`g_source_remove_poll`, no release. -/
theorem usb_fd_removed_cb_unknown_fd (fd : Int) (usb_src : libusbSource)
    (habs : ∀ p ∈ usb_src.fds, p.fd ≠ fd) :
    usb_fd_removed_cb fd usb_src = ⟨usb_src, []⟩ := by
  unfold usb_fd_removed_cb
  cases hfds : usb_src.fds with
  | nil => rfl
  | cons g rest =>
    rw [hfds] at habs
    have h1 := usb_fd_removed_loop_fst fd [] g rest
    have h2 := usb_fd_removed_loop_snd_of_absent fd [] g rest habs
    have hkeep : (g :: rest).eraseP (fun p => decide (p.fd = fd)) = g :: rest :=
      List.eraseP_of_forall_not (fun p hp => by simpa using habs p hp)
    simp only [h1, h2, hkeep, List.nil_append]
    cases usb_src
    simp_all

/-- Witness of `usb_fd_removed_cb_unknown_fd`: removing descriptor 9 from a
registry holding only descriptor 3. -/
theorem usb_fd_removed_cb_unknown_fd_witness :
    (∀ p ∈ src_one_ready.fds, p.fd ≠ 9) ∧
    usb_fd_removed_cb 9 src_one_ready = ⟨src_one_ready, []⟩ :=
  ⟨by decide, usb_fd_removed_cb_unknown_fd 9 src_one_ready (by decide)⟩


/-! ## Choice of the prepare function at construction -/

/-- When `libusb_init` succeeds, `libusbSource_new` points `usb_funcs.prepare`
at `alt_prepare` if `libusb_pollfds_handle_timeouts` returns 0 and leaves the
slot as it was otherwise. -/
theorem libusbSource_new_prepare_slot (usb_funcs : GSourceFuncs) (env : NewEnv)
    (hinit : env.usbErr = 0) :
    (libusbSource_new usb_funcs env).usb_funcs.prepare
      = if env.pollfds_handle_timeouts = 0 then PrepareFn.alt_prepare else usb_funcs.prepare := by
  simp only [libusbSource_new, hinit, ne_eq, not_true_eq_false, if_false]
  split <;> split <;> rfl

/-- `alt_prepare` requests an indefinite wait, returns `FALSE`, leaves the
source unchanged and makes no call, whatever the state. -/
theorem alt_prepare_indefinite (usb_src : libusbSource) (t : Int) :
    alt_prepare usb_src t = ⟨usb_src, -1, false, []⟩ := rfl

/-- C9 (fails on the code).  On the first call of `libusbSource_new`, with
`libusb_pollfds_handle_timeouts` returning 1 (timeouts folded into the
descriptors), the source is given the normal `prepare`, which queries the
deadline; with it returning 0 the source is given `alt_prepare`, which makes
no query and asks for an indefinite wait. -/
theorem libusbSource_new_strategy_inverted :
    (libusbSource_new usb_funcs_init ⟨0, 7, 1, some []⟩).ret = some src_fresh ∧
    (libusbSource_new usb_funcs_init ⟨0, 7, 1, some []⟩).usb_funcs.prepare = PrepareFn.prepare ∧
    source_prepare (libusbSource_new usb_funcs_init ⟨0, 7, 1, some []⟩).usb_funcs src_fresh
        ⟨1, 1, 250000⟩ (-1)
      = ⟨src_fresh, 1250, false, [Call.libusb_get_next_timeout 7]⟩ ∧
    (libusbSource_new usb_funcs_init ⟨0, 7, 0, some []⟩).ret = some src_fresh ∧
    (libusbSource_new usb_funcs_init ⟨0, 7, 0, some []⟩).usb_funcs.prepare
      = PrepareFn.alt_prepare ∧
    source_prepare (libusbSource_new usb_funcs_init ⟨0, 7, 0, some []⟩).usb_funcs src_fresh
        ⟨1, 1, 250000⟩ (-1)
      = ⟨src_fresh, -1, false, []⟩ := by
  refine ⟨by decide, by decide, by decide, by decide, by decide, by decide⟩

/-! ## The two error slots along a run of the main loop -/

/-- No call of the main loop other than a normal `prepare` whose deadline
query fails writes `timeout_error`. -/
theorem loop_step_timeout_error (usb_src : libusbSource) (c : LoopCall) :
    (loop_step usb_src c).timeout_error = usb_src.timeout_error ∨
    ∃ usb_funcs q, c = LoopCall.prepare usb_funcs q ∧ usb_funcs.prepare = PrepareFn.prepare ∧
      q.retval ≠ 0 ∧ q.retval ≠ 1 := by
  cases c with
  | prepare usb_funcs q =>
    simp only [loop_step, source_prepare]
    split
    · rename_i hp
      by_cases h0 : q.retval = 0
      · left
        simp [prepare, h0]
      · by_cases h1 : q.retval = 1
        · left
          simp [prepare, h1]
        · exact Or.inr ⟨usb_funcs, q, rfl, hp, h0, h1⟩
    · exact Or.inl rfl
  | check => exact Or.inl rfl
  | dispatch callback user_data status =>
    left
    simp only [loop_step, dispatch]
    split
    · rfl
    · split <;> rfl

/-- C10 (as stated, false).  From both slots zero: event processing fails with
-1 in the first iteration, the deadline query fails with -99 in the second;
at the end of the second prepare/check pass both slots are non-zero. -/
theorem both_error_slots_nonzero :
    src_one_ready.timeout_error = 0 ∧ src_one_ready.handle_events_error = 0 ∧
    (loop_run src_one_ready run_both_errors).timeout_error = -99 ∧
    (loop_run src_one_ready run_both_errors).handle_events_error = -1 ∧
    ¬ ((loop_run src_one_ready run_both_errors).timeout_error = 0 ∨
       (loop_run src_one_ready run_both_errors).handle_events_error = 0) := by
  refine ⟨by decide, by decide, by decide, by decide, by decide⟩

/-- One call of the main loop: `timeout_error` is non-zero afterwards iff it
was before or the call's deadline query fails; `handle_events_error` is
written only by a dispatch, with the status, and only when `timeout_error` is
zero or no callback is installed. -/
theorem loop_step_slots (usb_src : libusbSource) (c : LoopCall) :
    ((loop_step usb_src c).timeout_error ≠ 0 ↔
      (usb_src.timeout_error ≠ 0 ∨ query_fails c = true)) ∧
    (loop_step usb_src c).handle_events_error =
      (match c with
        | LoopCall.dispatch callback _ status =>
          if usb_src.timeout_error ≠ 0 ∧ callback ≠ none then usb_src.handle_events_error
          else status
        | _ => usb_src.handle_events_error) := by
  cases c with
  | prepare usb_funcs q =>
    cases hp : usb_funcs.prepare with
    | prepare =>
      by_cases h0 : q.retval = 0
      · simp [loop_step, source_prepare, prepare, query_fails, hp, h0]
      · by_cases h1 : q.retval = 1
        · simp [loop_step, source_prepare, prepare, query_fails, hp, h1]
        · simp [loop_step, source_prepare, prepare, query_fails, hp, h0, h1]
    | alt_prepare => simp [loop_step, source_prepare, alt_prepare, query_fails, hp]
  | check => simp [loop_step, query_fails]
  | dispatch callback user_data status =>
    cases callback with
    | none => simp [loop_step, dispatch, query_fails]
    | some cb =>
      by_cases ht : usb_src.timeout_error = 0
      · by_cases hs : status = 0 <;> simp [loop_step, dispatch, query_fails, ht, hs]
      · simp [loop_step, dispatch, query_fails, ht]

/-- Along a run from any source: `timeout_error` is non-zero afterwards iff it
was before or some deadline query of the run fails, and `handle_events_error`
is the status of the last event-processing call of the run, or what it was
before if the run makes none. -/
theorem loop_run_slots (cs : List LoopCall) (usb_src : libusbSource) :
    ((loop_run usb_src cs).timeout_error ≠ 0 ↔
      (usb_src.timeout_error ≠ 0 ∨ cs.any query_fails = true)) ∧
    (loop_run usb_src cs).handle_events_error =
      (processing_statuses (decide (usb_src.timeout_error ≠ 0)) cs).getLastD
        usb_src.handle_events_error := by
  induction cs generalizing usb_src with
  | nil => simp [loop_run, processing_statuses]
  | cons c cs ih =>
    have hrun : loop_run usb_src (c :: cs) = loop_run (loop_step usb_src c) cs := rfl
    obtain ⟨hte, hhe⟩ := loop_step_slots usb_src c
    obtain ⟨ihte, ihhe⟩ := ih (loop_step usb_src c)
    have hfailed : decide ((loop_step usb_src c).timeout_error ≠ 0)
        = (decide (usb_src.timeout_error ≠ 0) || query_fails c) := by
      rw [Bool.eq_iff_iff]
      simp only [decide_eq_true_eq, Bool.or_eq_true]
      exact hte
    rw [hrun]
    refine ⟨?_, ?_⟩
    · rw [ihte, hte, List.any_cons, Bool.or_eq_true, or_assoc]
    · rw [ihhe, hhe, hfailed]
      cases c with
      | prepare usb_funcs q => simp only [processing_statuses]
      | check => simp [processing_statuses, query_fails]
      | dispatch callback user_data status =>
        simp only [processing_statuses, query_fails, Bool.or_false]
        by_cases hg : usb_src.timeout_error ≠ 0 ∧ callback ≠ none
        · have hg' : decide (usb_src.timeout_error ≠ 0) = true ∧ callback ≠ none :=
            ⟨decide_eq_true hg.1, hg.2⟩
          rw [if_pos hg, if_pos hg']
        · have hg' : ¬ (decide (usb_src.timeout_error ≠ 0) = true ∧ callback ≠ none) :=
            fun h => hg ⟨of_decide_eq_true h.1, h.2⟩
          rw [if_neg hg, if_neg hg', List.getLastD_cons]

/-- Once `timeout_error` is non-zero, a run whose dispatches all have a
callback installed makes no event-processing call and never writes
`handle_events_error`. -/
theorem loop_run_handle_events_error_frozen (cs : List LoopCall) (usb_src : libusbSource)
    (hte : usb_src.timeout_error ≠ 0)
    (hcb : ∀ user_data status, LoopCall.dispatch none user_data status ∉ cs) :
    processing_statuses true cs = [] ∧
    (loop_run usb_src cs).handle_events_error = usb_src.handle_events_error := by
  have hnil : processing_statuses true cs = [] := by
    induction cs with
    | nil => rfl
    | cons c cs ih =>
      have ih' := ih (fun d st hmem => hcb d st (List.mem_cons_of_mem _ hmem))
      cases c with
      | prepare usb_funcs q => simpa [processing_statuses] using ih'
      | check => simpa [processing_statuses] using ih'
      | dispatch callback user_data status =>
        have hne : callback ≠ none := by
          intro h
          subst h
          exact hcb user_data status (List.mem_cons_self _ _)
        simpa [processing_statuses, hne] using ih'
  refine ⟨hnil, ?_⟩
  rw [(loop_run_slots cs usb_src).2, decide_eq_true hte, hnil]
  rfl

/-- C10 (amended).  From both slots zero, after the first `n` calls of any run
of prepare, check and dispatch calls (so at the end of each prepare/check
pass): `timeout_error` is non-zero exactly when a deadline query has failed so
far; `handle_events_error` is the status of the most recent event-processing
call, zero if there was none; so at most one slot is non-zero exactly when no
deadline query has failed so far or the most recent event-processing call
returned zero.  A dispatch made at that point calls event processing exactly
when no deadline query has failed so far or no callback is installed. -/
theorem error_slots_exclusive (usb_src : libusbSource) (cs : List LoopCall) (n : Nat)
    (hte : usb_src.timeout_error = 0) (hhe : usb_src.handle_events_error = 0) :
    ((loop_run usb_src (cs.take n)).timeout_error ≠ 0 ↔
      (cs.take n).any query_fails = true) ∧
    (loop_run usb_src (cs.take n)).handle_events_error =
      (processing_statuses false (cs.take n)).getLastD 0 ∧
    (((loop_run usb_src (cs.take n)).timeout_error = 0 ∨
        (loop_run usb_src (cs.take n)).handle_events_error = 0) ↔
      ((cs.take n).any query_fails = false ∨
        (processing_statuses false (cs.take n)).getLastD 0 = 0)) ∧
    (∀ callback user_data status,
      Call.libusb_handle_events_timeout (loop_run usb_src (cs.take n)).context 0 0 ∈
          (dispatch (loop_run usb_src (cs.take n)) callback user_data status).calls ↔
        ((cs.take n).any query_fails = false ∨ callback = none)) := by
  obtain ⟨h1, h2⟩ := loop_run_slots (cs.take n) usb_src
  have hA : (loop_run usb_src (cs.take n)).timeout_error ≠ 0 ↔
      (cs.take n).any query_fails = true := by
    rw [h1]
    simp [hte]
  have hA' : (loop_run usb_src (cs.take n)).timeout_error = 0 ↔
      (cs.take n).any query_fails = false := by
    rw [← Bool.not_eq_true, ← hA]
    exact not_not.symm
  have hB : (loop_run usb_src (cs.take n)).handle_events_error =
      (processing_statuses false (cs.take n)).getLastD 0 := by
    rw [h2, hhe]
    simp [hte]
  refine ⟨hA, hB, ?_, ?_⟩
  · rw [hA', hB]
  · intro callback user_data status
    rw [← hA']
    cases callback with
    | none => simp [dispatch, call_errCB]
    | some cb =>
      by_cases ht : (loop_run usb_src (cs.take n)).timeout_error = 0
      · by_cases hs : status = 0 <;> simp [dispatch, call_errCB, ht, hs]
      · simp [dispatch, call_errCB, ht]

/-- Witness of `error_slots_exclusive`: event processing fails, then succeeds,
then the deadline query fails, and the dispatch after it is handed the unused
status -1; the whole run of nine calls. -/
theorem error_slots_exclusive_witness :
    src_one_ready.timeout_error = 0 ∧ src_one_ready.handle_events_error = 0 ∧
    (run_recovered_then_query_fails.take 9).any query_fails = true ∧
    (processing_statuses false (run_recovered_then_query_fails.take 9)).getLastD 0 = 0 ∧
    (((loop_run src_one_ready (run_recovered_then_query_fails.take 9)).timeout_error ≠ 0 ↔
      (run_recovered_then_query_fails.take 9).any query_fails = true) ∧
    (loop_run src_one_ready (run_recovered_then_query_fails.take 9)).handle_events_error =
      (processing_statuses false (run_recovered_then_query_fails.take 9)).getLastD 0 ∧
    (((loop_run src_one_ready (run_recovered_then_query_fails.take 9)).timeout_error = 0 ∨
        (loop_run src_one_ready (run_recovered_then_query_fails.take 9)).handle_events_error
          = 0) ↔
      ((run_recovered_then_query_fails.take 9).any query_fails = false ∨
        (processing_statuses false (run_recovered_then_query_fails.take 9)).getLastD 0 = 0)) ∧
    (∀ callback user_data status,
      Call.libusb_handle_events_timeout
          (loop_run src_one_ready (run_recovered_then_query_fails.take 9)).context 0 0 ∈
          (dispatch (loop_run src_one_ready (run_recovered_then_query_fails.take 9))
            callback user_data status).calls ↔
        ((run_recovered_then_query_fails.take 9).any query_fails = false ∨
          callback = none))) :=
  ⟨rfl, rfl, by decide, by decide,
    error_slots_exclusive src_one_ready run_recovered_then_query_fails 9 rfl rfl⟩

/-! ## A deadline error over later iterations -/

/-- While no later deadline query fails, `timeout_error` keeps its value along
a run. -/
theorem loop_run_timeout_error_kept (cs : List LoopCall) (usb_src : libusbSource)
    (hq : ∀ usb_funcs q, LoopCall.prepare usb_funcs q ∈ cs →
      usb_funcs.prepare = PrepareFn.alt_prepare ∨ q.retval = 0 ∨ q.retval = 1) :
    (loop_run usb_src cs).timeout_error = usb_src.timeout_error := by
  induction cs generalizing usb_src with
  | nil => rfl
  | cons c cs ih =>
    have hrun : loop_run usb_src (c :: cs) = loop_run (loop_step usb_src c) cs := rfl
    rw [hrun, ih (loop_step usb_src c) (fun f q hmem => hq f q (List.mem_cons_of_mem _ hmem))]
    rcases loop_step_timeout_error usb_src c with h | ⟨f, q, hc, hp, h0, h1⟩
    · exact h
    · rcases hq f q (by rw [hc]; exact List.mem_cons_self _ _) with h | h | h
      · rw [hp] at h
        cases h
      · exact absurd h h0
      · exact absurd h h1

/-- The calls of the `k`-th call of a run are those of that call made on the
source the first `k` calls leave. -/
theorem loop_calls_getElem? (cs : List LoopCall) (usb_src : libusbSource) (k : Nat) :
    (loop_calls usb_src cs)[k]?
      = (cs[k]?).map (loop_step_calls (loop_run usb_src (cs.take k))) := by
  induction cs generalizing usb_src k with
  | nil => simp [loop_calls]
  | cons c cs ih =>
    cases k with
    | zero => simp [loop_calls, loop_run]
    | succ k =>
      simp only [loop_calls, List.getElem?_cons_succ, List.take_succ_cons]
      rw [ih (loop_step usb_src c) k]
      rfl

/-- C11 (as stated, false).  One failed deadline query (-99), then an
iteration whose deadline query succeeds: both dispatches call the callback
with deadline code -99, and the dispatch of the later iteration does not call
event processing. -/
theorem deadline_error_reported_again :
    loop_calls src_one_ready run_deadline_error_then_ok =
      [[Call.libusb_get_next_timeout 7], [], [Call.errCB 11 (-99) 0 22],
       [Call.libusb_get_next_timeout 7], [], [Call.errCB 11 (-99) 0 22]] ∧
    Call.libusb_handle_events_timeout 7 0 0 ∉
      (loop_calls src_one_ready run_deadline_error_then_ok).flatten := by
  refine ⟨by decide, by decide⟩

/-- C11 (amended).  After a deadline query has failed with code `E`, in every
continuation of the run in which no later deadline query fails, each dispatch
with a callback `h` installed makes the single call `h(E, 0, d)`, so does not
call event processing, and `timeout_error` is still `E` after it. -/
theorem deadline_error_sticky (usb_src : libusbSource) (q : NextTimeout) (cs : List LoopCall)
    (k h d : Nat) (status : Int) (h0 : q.retval ≠ 0) (h1 : q.retval ≠ 1)
    (hq : ∀ usb_funcs q', LoopCall.prepare usb_funcs q' ∈ cs →
      usb_funcs.prepare = PrepareFn.alt_prepare ∨ q'.retval = 0 ∨ q'.retval = 1)
    (hk : cs[k]? = some (LoopCall.dispatch (some h) d status)) :
    (loop_calls (prepare usb_src q (-1)).src cs)[k]? = some [Call.errCB h q.retval 0 d] ∧
    (loop_run (prepare usb_src q (-1)).src (cs.take (k + 1))).timeout_error = q.retval := by
  have hstart : (prepare usb_src q (-1)).src.timeout_error = q.retval := by
    simp [prepare, h0, h1]
  have hkept : ∀ n, (loop_run (prepare usb_src q (-1)).src (cs.take n)).timeout_error
      = q.retval := by
    intro n
    rw [loop_run_timeout_error_kept (cs.take n) _
      (fun f q' hmem => hq f q' (List.mem_of_mem_take hmem)), hstart]
  refine ⟨?_, hkept (k + 1)⟩
  rw [loop_calls_getElem?, hk]
  simp [loop_step_calls, dispatch, call_errCB, hkept k, h0]

/-- Witness of `deadline_error_sticky`: the deadline query fails with -99, the
next one succeeds, and the dispatch after it reports -99 again. -/
theorem deadline_error_sticky_witness :
    (loop_calls (prepare src_one_ready ⟨-99, 0, 0⟩ (-1)).src
        [LoopCall.check, LoopCall.dispatch (some 11) 22 0,
         LoopCall.prepare usb_funcs_init ⟨0, 0, 0⟩, LoopCall.check,
         LoopCall.dispatch (some 11) 22 0])[4]?
      = some [Call.errCB 11 (-99) 0 22] ∧
    (loop_run (prepare src_one_ready ⟨-99, 0, 0⟩ (-1)).src
        ([LoopCall.check, LoopCall.dispatch (some 11) 22 0,
          LoopCall.prepare usb_funcs_init ⟨0, 0, 0⟩, LoopCall.check,
          LoopCall.dispatch (some 11) 22 0].take (4 + 1))).timeout_error = -99 :=
  deadline_error_sticky src_one_ready ⟨-99, 0, 0⟩ _ 4 11 22 0 (by decide) (by decide)
    (fun f q' hmem => by
      simp only [List.mem_cons, LoopCall.prepare.injEq, List.mem_singleton, List.not_mem_nil,
        reduceCtorEq, false_or, or_false] at hmem
      rcases hmem with ⟨_, hq'⟩
      rw [hq']
      exact Or.inr (Or.inl rfl))
    rfl


/-! ## Device handles and finalize -/

/-- `open_usb_device_handle` leaves every field of the source as it was. -/
theorem open_usb_device_handle_src (usb_source : libusbSource) (is_device : Nat → Int)
    (iface_num : List Int) (denv : DeviceListEnv) (oenv : OpenEnv) :
    (open_usb_device_handle usb_source is_device iface_num denv oenv).src = usb_source := rfl

/-- The calls of `g_slist_free_full(fds, free_pollfd)`: one release per entry. -/
theorem g_slist_free_full_pollfd_eq (l : List GPollFD) :
    g_slist_free_full_pollfd l = l.map Call.g_slice_free := by
  induction l with
  | nil => rfl
  | cons p rest ih => simp [g_slist_free_full_pollfd, free_pollfd, ih]

/-- The calls of `g_slist_foreach(devices, close_device, NULL)`: one close per
handle. -/
theorem g_slist_foreach_close_device_eq (l : List Nat) :
    g_slist_foreach_close_device l = l.map Call.libusb_close := by
  induction l with
  | nil => rfl
  | cons h rest ih => simp [g_slist_foreach_close_device, close_device, ih]

/-- C12 (fails on the code).  On a fresh source, with device 5 found, opened
as handle 42 and interface 0 claimed, `open_usb_device_handle` returns handle
42 but `devices` is still empty, and `finalize` of that source calls only
`libusb_exit`: handle 42 is not closed. -/
theorem open_usb_device_handle_not_recorded :
    (open_usb_device_handle src_fresh (fun _ => 1) [0] one_device open_all_ok).ret = some 42 ∧
    (open_usb_device_handle src_fresh (fun _ => 1) [0] one_device open_all_ok).calls =
      [Call.libusb_get_device_list 7, Call.libusb_ref_device 5, Call.libusb_free_device_list,
       Call.libusb_open 5, Call.libusb_kernel_driver_active 42 0,
       Call.libusb_claim_interface 42 0] ∧
    (open_usb_device_handle src_fresh (fun _ => 1) [0] one_device open_all_ok).src.devices = [] ∧
    (finalize (open_usb_device_handle src_fresh (fun _ => 1) [0] one_device open_all_ok).src).calls
      = [Call.libusb_exit 7] ∧
    closed_handles
      (finalize (open_usb_device_handle src_fresh (fun _ => 1) [0] one_device open_all_ok).src).calls
      = [] := by
  refine ⟨by decide, by decide, by decide, by decide, by decide⟩

/-- C14.  For every source, whatever its error slots, `finalize` releases the
entries of `fds` one by one, each once and head first, then closes the handles
of `devices`, each once, then calls `libusb_exit` once as its last call; it
never calls `g_source_remove_poll`, and it leaves `fds` empty and the other
fields as they were. -/
theorem finalize_releases_all (usb_src : libusbSource) :
    (finalize usb_src).src = { usb_src with fds := [] } ∧
    (finalize usb_src).calls =
      usb_src.fds.map Call.g_slice_free ++ usb_src.devices.map Call.libusb_close ++
        [Call.libusb_exit usb_src.context] ∧
    (∀ p, Call.g_source_remove_poll p ∉ (finalize usb_src).calls) ∧
    (∀ p, (finalize usb_src).calls.count (Call.g_slice_free p) = usb_src.fds.count p) ∧
    closed_handles (finalize usb_src).calls = usb_src.devices ∧
    (finalize usb_src).calls.count (Call.libusb_exit usb_src.context) = 1 := by
  have hcalls : (finalize usb_src).calls =
      usb_src.fds.map Call.g_slice_free ++ usb_src.devices.map Call.libusb_close ++
        [Call.libusb_exit usb_src.context] := by
    simp [finalize, g_slist_free_full_pollfd_eq, g_slist_foreach_close_device_eq]
  have hinj : Function.Injective Call.g_slice_free := fun a b hab => by
    injection hab
  refine ⟨rfl, hcalls, ?_, ?_, ?_, ?_⟩
  · intro p
    rw [hcalls]
    simp
  · intro p
    rw [hcalls, List.count_append, List.count_append, List.count_map_of_injective _ _ hinj]
    have h1 : (usb_src.devices.map Call.libusb_close).count (Call.g_slice_free p) = 0 :=
      List.count_eq_zero.2 (by simp)
    have h2 : [Call.libusb_exit usb_src.context].count (Call.g_slice_free p) = 0 :=
      List.count_eq_zero.2 (by simp)
    rw [h1, h2]
    rfl
  · rw [hcalls]
    simp only [closed_handles, List.filterMap_append, List.filterMap_map]
    have h1 : List.filterMap ((fun c => match c with
        | Call.libusb_close handle => some handle
        | _ => none) ∘ Call.g_slice_free) usb_src.fds = [] := by
      induction usb_src.fds with
      | nil => rfl
      | cons x xs ih => simp [List.filterMap_cons]
    have h2 : List.filterMap ((fun c => match c with
        | Call.libusb_close handle => some handle
        | _ => none) ∘ Call.libusb_close) usb_src.devices = usb_src.devices := by
      induction usb_src.devices with
      | nil => rfl
      | cons x xs ih => simpa [List.filterMap_cons] using ih
    rw [h1, h2]
    simp
  · rw [hcalls, List.count_append, List.count_append]
    have h1 : (usb_src.fds.map Call.g_slice_free).count (Call.libusb_exit usb_src.context) = 0 :=
      List.count_eq_zero.2 (by simp)
    have h2 : (usb_src.devices.map Call.libusb_close).count (Call.libusb_exit usb_src.context)
        = 0 := List.count_eq_zero.2 (by simp)
    rw [h1, h2]
    simp

/-! ## Construction: failure and success -/

/-- C13.  `libusbSource_new` returns `NULL` iff `libusb_init` returns non-zero
or `libusb_get_pollfds` returns `NULL`.  When `libusb_init` fails the only
calls are `libusb_init` and the error print, and the static `usb_funcs` is
untouched; when the enumeration fails the calls end with `g_source_destroy`
and no entry is registered; in neither case is
`libusb_set_pollfd_notifiers` called. -/
theorem libusbSource_new_null_iff (usb_funcs : GSourceFuncs) (env : NewEnv) :
    ((libusbSource_new usb_funcs env).ret = none ↔ (env.usbErr ≠ 0 ∨ env.usb_fds = none)) ∧
    (env.usbErr ≠ 0 →
      libusbSource_new usb_funcs env
        = ⟨usb_funcs, none, [Call.libusb_init, Call.print_libusb_error env.usbErr]⟩) ∧
    (env.usbErr = 0 → env.usb_fds = none →
      (libusbSource_new usb_funcs env).calls =
        [Call.libusb_init, Call.libusb_set_debug env.context 3,
         Call.libusb_pollfds_handle_timeouts env.context, Call.g_source_new,
         Call.libusb_get_pollfds env.context, Call.g_source_destroy]) ∧
    ((libusbSource_new usb_funcs env).ret = none →
      ∀ ctx, Call.libusb_set_pollfd_notifiers ctx ∉ (libusbSource_new usb_funcs env).calls) := by
  by_cases herr : env.usbErr = 0
  · cases hfds : env.usb_fds with
    | none => simp [libusbSource_new, init_usb_fds, herr, hfds]
    | some l => simp [libusbSource_new, init_usb_fds, herr, hfds]
  · simp [libusbSource_new, herr]

/-- Witness of `libusbSource_new_null_iff`: `libusb_init` failing with -99,
and `libusb_get_pollfds` returning `NULL` after a successful `libusb_init`. -/
theorem libusbSource_new_null_iff_witness :
    libusbSource_new usb_funcs_init ⟨-99, 0, 0, some [(3, 1)]⟩
      = ⟨usb_funcs_init, none, [Call.libusb_init, Call.print_libusb_error (-99)]⟩ ∧
    (libusbSource_new usb_funcs_init ⟨0, 7, 1, none⟩).ret = none ∧
    (libusbSource_new usb_funcs_init ⟨0, 7, 1, none⟩).calls =
      [Call.libusb_init, Call.libusb_set_debug 7 3, Call.libusb_pollfds_handle_timeouts 7,
       Call.g_source_new, Call.libusb_get_pollfds 7, Call.g_source_destroy] ∧
    (∀ ctx, Call.libusb_set_pollfd_notifiers ctx ∉
      (libusbSource_new usb_funcs_init ⟨0, 7, 1, none⟩).calls) :=
  ⟨(libusbSource_new_null_iff usb_funcs_init ⟨-99, 0, 0, some [(3, 1)]⟩).2.1 (by decide),
   (libusbSource_new_null_iff usb_funcs_init ⟨0, 7, 1, none⟩).1.2 (Or.inr rfl),
   (libusbSource_new_null_iff usb_funcs_init ⟨0, 7, 1, none⟩).2.2.1 rfl rfl,
   (libusbSource_new_null_iff usb_funcs_init ⟨0, 7, 1, none⟩).2.2.2
     ((libusbSource_new_null_iff usb_funcs_init ⟨0, 7, 1, none⟩).1.2 (Or.inr rfl))⟩

/-- C15 (fails on the code).  A first `libusbSource_new` (capability 1) makes
a source whose prepare is the normal one: deadline `(1, 250000)` gives wait
1250 after a deadline query.  A second `libusbSource_new` (capability 0) then
rewrites the static `usb_funcs` that the first source points at: the same
prepare call on the first source now makes no query and asks for an indefinite
wait. -/
theorem later_construction_changes_prepare :
    (libusbSource_new usb_funcs_init ⟨0, 7, 1, some []⟩).ret = some src_fresh ∧
    source_prepare (libusbSource_new usb_funcs_init ⟨0, 7, 1, some []⟩).usb_funcs src_fresh
        ⟨1, 1, 250000⟩ (-1)
      = ⟨src_fresh, 1250, false, [Call.libusb_get_next_timeout 7]⟩ ∧
    (libusbSource_new (libusbSource_new usb_funcs_init ⟨0, 7, 1, some []⟩).usb_funcs
        ⟨0, 8, 0, some []⟩).ret ≠ none ∧
    source_prepare
        (libusbSource_new (libusbSource_new usb_funcs_init ⟨0, 7, 1, some []⟩).usb_funcs
          ⟨0, 8, 0, some []⟩).usb_funcs
        src_fresh ⟨1, 1, 250000⟩ (-1)
      = ⟨src_fresh, -1, false, []⟩ := by
  refine ⟨by decide, by decide, by decide, by decide⟩

/-! ## The entry made by an add notification -/

/-- The source and the call `usb_fd_added_cb` produces, with the new entry
written out. -/
theorem usb_fd_added_cb_eq (fd : Int) (ev : Nat) (usb_src : libusbSource) :
    usb_fd_added_cb fd ev usb_src =
      ⟨{ usb_src with fds :=
          ⟨fd, (if ev &&& POLLIN ≠ 0 then G_IO_IN else 0) +
            (if ev &&& POLLOUT ≠ 0 then G_IO_OUT else 0), 0⟩ :: usb_src.fds },
        [Call.g_source_add_poll
          ⟨fd, (if ev &&& POLLIN ≠ 0 then G_IO_IN else 0) +
            (if ev &&& POLLOUT ≠ 0 then G_IO_OUT else 0), 0⟩]⟩ := by
  by_cases hin : ev &&& POLLIN = 0 <;> by_cases hout : ev &&& POLLOUT = 0 <;>
    simp [usb_fd_added_cb, hin, hout, G_IO_IN, G_IO_OUT]

/-- C16.  `usb_fd_added_cb` puts one new entry in front of the old `fds`,
which it leaves as it was, and registers exactly that entry with
`g_source_add_poll`.  The entry holds `fd`, has `revents` 0, and its `events`
are `G_IO_IN` if `POLLIN` is set in the native mask plus `G_IO_OUT` if
`POLLOUT` is set: `G_IO_IN` is set iff `POLLIN` is, `G_IO_OUT` iff `POLLOUT`
is, and no other bit is set. -/
theorem usb_fd_added_cb_entry (fd : Int) (ev : Nat) (usb_src : libusbSource) :
    usb_fd_added_cb fd ev usb_src =
      ⟨{ usb_src with fds :=
          ⟨fd, (if ev &&& POLLIN ≠ 0 then G_IO_IN else 0) +
            (if ev &&& POLLOUT ≠ 0 then G_IO_OUT else 0), 0⟩ :: usb_src.fds },
        [Call.g_source_add_poll
          ⟨fd, (if ev &&& POLLIN ≠ 0 then G_IO_IN else 0) +
            (if ev &&& POLLOUT ≠ 0 then G_IO_OUT else 0), 0⟩]⟩ ∧
    ((((if ev &&& POLLIN ≠ 0 then G_IO_IN else 0) +
        (if ev &&& POLLOUT ≠ 0 then G_IO_OUT else 0)) &&& G_IO_IN ≠ 0) ↔
      ev &&& POLLIN ≠ 0) ∧
    ((((if ev &&& POLLIN ≠ 0 then G_IO_IN else 0) +
        (if ev &&& POLLOUT ≠ 0 then G_IO_OUT else 0)) &&& G_IO_OUT ≠ 0) ↔
      ev &&& POLLOUT ≠ 0) ∧
    ((if ev &&& POLLIN ≠ 0 then G_IO_IN else 0) +
        (if ev &&& POLLOUT ≠ 0 then G_IO_OUT else 0)) &&& (G_IO_IN ||| G_IO_OUT)
      = (if ev &&& POLLIN ≠ 0 then G_IO_IN else 0) +
        (if ev &&& POLLOUT ≠ 0 then G_IO_OUT else 0) := by
  refine ⟨usb_fd_added_cb_eq fd ev usb_src, ?_⟩
  by_cases hin : ev &&& POLLIN = 0 <;> by_cases hout : ev &&& POLLOUT = 0 <;>
    simp [hin, hout, G_IO_IN, G_IO_OUT]
  decide


/-! ## A successful construction -/

/-- The loop of `init_usb_fds` makes one entry per enumerated descriptor,
registers them in enumeration order and leaves them in `fds` in reverse order,
in front of what `fds` held. -/
theorem init_usb_fds_loop_entries (l : List (Int × Nat)) (usb_source : libusbSource) :
    ∃ es : List GPollFD, es.map GPollFD.fd = l.map Prod.fst ∧
      (init_usb_fds_loop l usb_source).src
        = { usb_source with fds := es.reverse ++ usb_source.fds } ∧
      (init_usb_fds_loop l usb_source).calls = es.map Call.g_source_add_poll := by
  induction l generalizing usb_source with
  | nil => exact ⟨[], rfl, rfl, rfl⟩
  | cons x rest ih =>
    obtain ⟨fd, ev⟩ := x
    have hadd := usb_fd_added_cb_eq fd ev usb_source
    obtain ⟨es, hfd, hsrc, hcalls⟩ := ih (usb_fd_added_cb fd ev usb_source).src
    refine ⟨⟨fd, (if ev &&& POLLIN ≠ 0 then G_IO_IN else 0) +
      (if ev &&& POLLOUT ≠ 0 then G_IO_OUT else 0), 0⟩ :: es, ?_, ?_, ?_⟩
    · simp [hfd]
    · simp only [init_usb_fds_loop, hsrc]
      rw [hadd]
      simp
    · simp only [init_usb_fds_loop, hcalls]
      rw [hadd]
      simp

/-- C17.  When `libusb_init` succeeds and `libusb_get_pollfds` enumerates the
pairwise distinct descriptors of `l`, `libusbSource_new` returns a source with
both error slots zero, no device handle, and one entry per enumerated
descriptor, in reverse enumeration order; each entry is registered once with
`g_source_add_poll`, in enumeration order, and
`libusb_set_pollfd_notifiers` is called after all of them, as the last
call. -/
theorem libusbSource_new_success (usb_funcs : GSourceFuncs) (env : NewEnv)
    (l : List (Int × Nat)) (herr : env.usbErr = 0) (hfds : env.usb_fds = some l)
    (hdistinct : (l.map Prod.fst).Nodup) :
    ∃ s : libusbSource, (libusbSource_new usb_funcs env).ret = some s ∧
      s.timeout_error = 0 ∧ s.handle_events_error = 0 ∧ s.devices = [] ∧
      s.context = env.context ∧ s.fds.length = l.length ∧
      registered_fds s = (l.map Prod.fst).reverse ∧ (registered_fds s).Nodup ∧
      (libusbSource_new usb_funcs env).calls =
        [Call.libusb_init, Call.libusb_set_debug env.context 3,
         Call.libusb_pollfds_handle_timeouts env.context, Call.g_source_new,
         Call.libusb_get_pollfds env.context] ++
        s.fds.reverse.map Call.g_source_add_poll ++
        [Call.free_pollfds_list, Call.libusb_set_pollfd_notifiers env.context] := by
  obtain ⟨es, hfd, hsrc, hcalls⟩ := init_usb_fds_loop_entries l ⟨[], [], 0, 0, env.context⟩
  have hlen : es.length = l.length := by
    have := congrArg List.length hfd
    simpa using this
  have hreg : (es.reverse.map GPollFD.fd) = (l.map Prod.fst).reverse := by
    rw [List.map_reverse, hfd]
  refine ⟨⟨[], es.reverse, 0, 0, env.context⟩, ?_, rfl, rfl, rfl, rfl, ?_, ?_, ?_, ?_⟩
  · simp [libusbSource_new, init_usb_fds, herr, hfds, hsrc]
  · simp [hlen]
  · simpa [registered_fds] using hreg
  · simp only [registered_fds]
    rw [hreg]
    exact List.nodup_reverse.2 hdistinct
  · simp [libusbSource_new, init_usb_fds, herr, hfds, hcalls]

/-- Witness of `libusbSource_new_success`: libusb enumerates descriptors 3
(read) and 5 (write). -/
theorem libusbSource_new_success_witness :
    ∃ s : libusbSource,
      (libusbSource_new usb_funcs_init ⟨0, 7, 1, some [(3, 1), (5, 4)]⟩).ret = some s ∧
      s.timeout_error = 0 ∧ s.handle_events_error = 0 ∧ s.devices = [] ∧
      s.context = 7 ∧ s.fds.length = 2 ∧
      registered_fds s = [5, 3] ∧ (registered_fds s).Nodup ∧
      (libusbSource_new usb_funcs_init ⟨0, 7, 1, some [(3, 1), (5, 4)]⟩).calls =
        [Call.libusb_init, Call.libusb_set_debug 7 3,
         Call.libusb_pollfds_handle_timeouts 7, Call.g_source_new,
         Call.libusb_get_pollfds 7] ++
        s.fds.reverse.map Call.g_source_add_poll ++
        [Call.free_pollfds_list, Call.libusb_set_pollfd_notifiers 7] :=
  libusbSource_new_success usb_funcs_init ⟨0, 7, 1, some [(3, 1), (5, 4)]⟩ [(3, 1), (5, 4)]
    rfl rfl (by decide)


/-! ## open_device_interface -/

/-- The passes from `i` on succeed iff pass `i` does and the passes from
`i + 1` on do. -/
theorem passes_succeed_succ (env : OpenEnv) (i n : Nat) :
    passes_succeed env i (n + 1) ↔
      (0 ≤ env.kd_stat i ∧ (0 < env.kd_stat i → env.detach_ret i = 0) ∧ env.claim_ret i = 0) ∧
      passes_succeed env (i + 1) n := by
  constructor
  · intro h
    refine ⟨by simpa using h 0 (Nat.succ_pos n), fun j hj => ?_⟩
    have := h (j + 1) (Nat.succ_lt_succ hj)
    rwa [show i + (j + 1) = i + 1 + j by omega] at this
  · rintro ⟨h0, hrest⟩ j hj
    cases j with
    | zero => simpa using h0
    | succ j =>
      have := hrest j (Nat.lt_of_succ_lt_succ hj)
      rwa [show i + 1 + j = i + (j + 1) by omega] at this

/-- The loop of `open_device_interface` either completes every pass, returns
the handle and never closes it, or fails in some pass, returns `NULL` and
closes the handle once. -/
theorem open_device_interface_loop_closes (handle : Nat) (env : OpenEnv) (l : List Int)
    (i : Nat) :
    (passes_succeed env i l.length ∧
      (open_device_interface_loop handle env i l).1 = some handle ∧
      closed_handles (open_device_interface_loop handle env i l).2 = []) ∨
    (¬ passes_succeed env i l.length ∧
      (open_device_interface_loop handle env i l).1 = none ∧
      closed_handles (open_device_interface_loop handle env i l).2 = [handle]) := by
  induction l generalizing i with
  | nil =>
    left
    exact ⟨fun j hj => absurd hj (Nat.not_lt_zero j), rfl, rfl⟩
  | cons iface rest ih =>
    rw [List.length_cons, passes_succeed_succ]
    by_cases hkd : env.kd_stat i < 0
    · right
      refine ⟨fun h => absurd h.1.1 (not_le.2 hkd), ?_, ?_⟩ <;>
        simp [open_device_interface_loop, hkd, closed_handles]
    · by_cases hdet : env.kd_stat i > 0 ∧ env.detach_ret i ≠ 0
      · right
        refine ⟨fun h => hdet.2 (h.1.2.1 hdet.1), ?_, ?_⟩ <;>
          simp [open_device_interface_loop, hkd, hdet, closed_handles]
      · by_cases hclaim : env.claim_ret i = 0
        · have hpass : 0 ≤ env.kd_stat i ∧ (0 < env.kd_stat i → env.detach_ret i = 0) ∧
              env.claim_ret i = 0 :=
            ⟨not_lt.1 hkd, fun hpos => by_contra (fun hne => hdet ⟨hpos, hne⟩), hclaim⟩
          have hstep : open_device_interface_loop handle env i (iface :: rest) =
              ((open_device_interface_loop handle env (i + 1) rest).1,
                ((if env.kd_stat i > 0 then
                    [Call.libusb_kernel_driver_active handle iface,
                      Call.libusb_detach_kernel_driver handle iface]
                  else [Call.libusb_kernel_driver_active handle iface]) ++
                  [Call.libusb_claim_interface handle iface]) ++
                (open_device_interface_loop handle env (i + 1) rest).2) := by
            rw [open_device_interface_loop]
            simp only [hkd, hdet, hclaim, ne_eq, not_true_eq_false, if_false]
            split <;> simp
          have hpre : closed_handles ((if env.kd_stat i > 0 then
                    [Call.libusb_kernel_driver_active handle iface,
                      Call.libusb_detach_kernel_driver handle iface]
                  else [Call.libusb_kernel_driver_active handle iface]) ++
                  [Call.libusb_claim_interface handle iface]) = [] := by
            split <;> simp [closed_handles]
          have happ : ∀ a b : List Call,
              closed_handles (a ++ b) = closed_handles a ++ closed_handles b :=
            fun a b => by simp [closed_handles]
          rw [hstep]
          rcases ih (i + 1) with ⟨hs, hret, hcl⟩ | ⟨hs, hret, hcl⟩
          · left
            exact ⟨⟨hpass, hs⟩, hret, by rw [happ, hpre, hcl]; rfl⟩
          · right
            exact ⟨fun h => hs h.2, hret, by rw [happ, hpre, hcl]; rfl⟩
        · right
          refine ⟨fun h => hclaim h.1.2.2, ?_, ?_⟩
          · simp [open_device_interface_loop, hkd, hdet, hclaim]
          · rw [open_device_interface_loop]
            simp only [hkd, hdet, hclaim, ne_eq, not_false_eq_true, if_true, if_false]
            split <;> simp [closed_handles]

/-- C18.  For every device pointer, interface list and outcome of the libusb
calls, `open_device_interface` either returns the opened handle without any
`libusb_close` call, which is the case exactly when the device is not `NULL`,
`libusb_open` succeeds and every pass of the loop succeeds, or returns `NULL`;
then the opened handle is closed exactly once if `libusb_open` had succeeded,
and nothing is closed if the device is `NULL` or `libusb_open` failed. -/
theorem open_device_interface_closes (dev : Option Nat) (iface_num : List Int) (env : OpenEnv) :
    ((dev ≠ none ∧ env.open_ret = 0 ∧ passes_succeed env 0 iface_num.length) ∧
      (open_device_interface dev iface_num env).1 = some env.handle ∧
      closed_handles (open_device_interface dev iface_num env).2 = []) ∨
    (¬ (dev ≠ none ∧ env.open_ret = 0 ∧ passes_succeed env 0 iface_num.length) ∧
      (open_device_interface dev iface_num env).1 = none ∧
      closed_handles (open_device_interface dev iface_num env).2
        = if dev ≠ none ∧ env.open_ret = 0 then [env.handle] else []) := by
  cases dev with
  | none =>
    right
    exact ⟨fun h => h.1 rfl, rfl, by simp [open_device_interface, closed_handles]⟩
  | some d =>
    by_cases hopen : env.open_ret = 0
    · have happ : ∀ a b : List Call,
          closed_handles (a ++ b) = closed_handles a ++ closed_handles b :=
        fun a b => by simp [closed_handles]
      have hstep : open_device_interface (some d) iface_num env =
          ((open_device_interface_loop env.handle env 0 iface_num).1,
            [Call.libusb_open d] ++ (open_device_interface_loop env.handle env 0 iface_num).2) := by
        simp [open_device_interface, hopen]
      rw [hstep]
      rcases open_device_interface_loop_closes env.handle env iface_num 0 with
        ⟨hs, hret, hcl⟩ | ⟨hs, hret, hcl⟩
      · left
        refine ⟨⟨by simp, hopen, hs⟩, hret, ?_⟩
        rw [happ, hcl]
        rfl
      · right
        refine ⟨fun h => hs h.2.2, hret, ?_⟩
        rw [happ, hcl]
        simp [hopen, closed_handles]
    · right
      refine ⟨fun h => hopen h.2.1, ?_, ?_⟩ <;>
        simp [open_device_interface, hopen, closed_handles]

/-- C19 (fails on the code).  Interfaces 0 and 1 on handle 42.  When the
driver of interface 0 has been detached and the driver-status query of
interface 1 then fails, the handle is closed and `NULL` returned with no
`libusb_attach_kernel_driver` call at all.  When both drivers have been
detached and the claim of interface 1 fails, only interface 1 is reattached:
the detached driver of interface 0 is not. -/
theorem open_device_interface_leaves_driver_detached :
    open_device_interface (some 5) [0, 1] open_second_query_fails =
      (none, [Call.libusb_open 5, Call.libusb_kernel_driver_active 42 0,
        Call.libusb_detach_kernel_driver 42 0, Call.libusb_claim_interface 42 0,
        Call.libusb_kernel_driver_active 42 1, Call.print_libusb_error (-99),
        Call.libusb_close 42]) ∧
    detached_ifaces (open_device_interface (some 5) [0, 1] open_second_query_fails).2 = [0] ∧
    attached_ifaces (open_device_interface (some 5) [0, 1] open_second_query_fails).2 = [] ∧
    open_device_interface (some 5) [0, 1] open_second_claim_fails =
      (none, [Call.libusb_open 5, Call.libusb_kernel_driver_active 42 0,
        Call.libusb_detach_kernel_driver 42 0, Call.libusb_claim_interface 42 0,
        Call.libusb_kernel_driver_active 42 1, Call.libusb_detach_kernel_driver 42 1,
        Call.libusb_claim_interface 42 1, Call.print_libusb_error (-6),
        Call.libusb_attach_kernel_driver 42 1, Call.libusb_close 42]) ∧
    detached_ifaces (open_device_interface (some 5) [0, 1] open_second_claim_fails).2
      = [0, 1] ∧
    attached_ifaces (open_device_interface (some 5) [0, 1] open_second_claim_fails).2 = [1] := by
  refine ⟨by decide, by decide, by decide, by decide, by decide, by decide⟩


/-! ## Removing a registered descriptor -/

/-- When some node from `elem` onwards holds `fd`, the removal loop unlinks
the first such node, unregisters and releases its entry, and keeps every other
node in place. -/
theorem usb_fd_removed_loop_first_match (fd : Int) (before : List GPollFD) (g : GPollFD)
    (rest : List GPollFD) (hex : ∃ p ∈ g :: rest, p.fd = fd) :
    ∃ pre e post, g :: rest = pre ++ e :: post ∧ (∀ p ∈ pre, p.fd ≠ fd) ∧ e.fd = fd ∧
      usb_fd_removed_loop fd before g rest =
        (before ++ pre ++ post, [Call.g_source_remove_poll e, Call.g_slice_free e]) := by
  induction rest generalizing before g with
  | nil =>
    obtain ⟨p, hp, hpfd⟩ := hex
    have hg : g.fd = fd := by
      rw [List.mem_singleton] at hp
      rw [← hp]
      exact hpfd
    refine ⟨[], g, [], rfl, by simp, hg, ?_⟩
    unfold usb_fd_removed_loop
    simp [hg]
  | cons x xs ih =>
    by_cases hg : g.fd = fd
    · refine ⟨[], g, x :: xs, rfl, by simp, hg, ?_⟩
      unfold usb_fd_removed_loop
      simp [hg]
    · have hex' : ∃ p ∈ x :: xs, p.fd = fd := by
        obtain ⟨p, hp, hpfd⟩ := hex
        rcases List.mem_cons.1 hp with h | h
        · rw [h] at hpfd
          exact absurd hpfd hg
        · exact ⟨p, h, hpfd⟩
      obtain ⟨pre, e, post, hsplit, hpre, he, hloop⟩ := ih (before ++ [g]) x hex'
      refine ⟨g :: pre, e, post, by rw [hsplit]; rfl, ?_, he, ?_⟩
      · intro p hp
        rcases List.mem_cons.1 hp with h | h
        · rw [h]
          exact hg
        · exact hpre p h
      · unfold usb_fd_removed_loop
        simp only [hg, if_false]
        rw [hloop]
        simp

/-- C20.  When some entry of `fds` holds `fd` (other entries may hold it
too), `usb_fd_removed_cb` unregisters and releases exactly the first such
entry `e`: `fds` was `pre ++ e :: post` with no entry of `pre` holding `fd`,
and becomes `pre ++ post`, one entry shorter, the other entries unmodified and
in the same order; no other field changes. -/
theorem usb_fd_removed_cb_first_match (fd : Int) (usb_src : libusbSource)
    (hex : ∃ p ∈ usb_src.fds, p.fd = fd) :
    ∃ pre e post, usb_src.fds = pre ++ e :: post ∧ (∀ p ∈ pre, p.fd ≠ fd) ∧ e.fd = fd ∧
      usb_fd_removed_cb fd usb_src =
        ⟨{ usb_src with fds := pre ++ post },
          [Call.g_source_remove_poll e, Call.g_slice_free e]⟩ ∧
      (usb_fd_removed_cb fd usb_src).src.fds.length + 1 = usb_src.fds.length := by
  cases hfds : usb_src.fds with
  | nil =>
    rw [hfds] at hex
    obtain ⟨p, hp, _⟩ := hex
    cases hp
  | cons g rest =>
    rw [hfds] at hex
    obtain ⟨pre, e, post, hsplit, hpre, he, hloop⟩ :=
      usb_fd_removed_loop_first_match fd [] g rest hex
    have hcb : usb_fd_removed_cb fd usb_src =
        ⟨{ usb_src with fds := pre ++ post },
          [Call.g_source_remove_poll e, Call.g_slice_free e]⟩ := by
      simp [usb_fd_removed_cb, hfds, hloop]
    refine ⟨pre, e, post, hsplit, hpre, he, hcb, ?_⟩
    rw [hcb, hsplit]
    simp
    omega

/-- Witness of `usb_fd_removed_cb_first_match`: descriptor 5 is held by the
second and the third of three entries. -/
theorem usb_fd_removed_cb_first_match_witness :
    ∃ pre e post, src_duplicate_fd.fds = pre ++ e :: post ∧ (∀ p ∈ pre, p.fd ≠ 5) ∧ e.fd = 5 ∧
      usb_fd_removed_cb 5 src_duplicate_fd =
        ⟨{ src_duplicate_fd with fds := pre ++ post },
          [Call.g_source_remove_poll e, Call.g_slice_free e]⟩ ∧
      (usb_fd_removed_cb 5 src_duplicate_fd).src.fds.length + 1
        = src_duplicate_fd.fds.length :=
  usb_fd_removed_cb_first_match 5 src_duplicate_fd ⟨⟨5, 4, 0⟩, by decide, rfl⟩


end LibusbGSource
